import Mathlib

/-!
Verification of the marktplaats scraper (repository `marktplaats-scraper-0.2.3`).

This file gives a shallow embedding, in Lean 4, of the parts of the source
that the specification's claims are about:

* `ProxyRotator` (`src/fetch_listings.py`, lines 123-140);
* the adaptive-delay rate state of `MpScraper`
  (`src/mpscraper/mpscraper.py`, lines 124-166);
* `upsert_listings` (`src/telegram_bot/database.py`, lines 233-264) together
  with the pandas `drop_duplicates(subset=["item_id"], keep="last")` step;
* `extract_config` (`src/fetch_listings.py`, lines 402-426) together with an
  executable model of `json.loads`;
* `age_hours` (`src/fetch_listings.py`, lines 388-399) and `diff_hours`
  (`src/mpscraper/utils.py`);
* the per-category crawl loops: `MpScraper.get_listings`
  (`src/mpscraper/mpscraper.py`, lines 538-871) and `_worker_category`
  (`src/fetch_listings.py`, lines 510-606).

Modelling conventions.  Python strings are modelled as Lean `String`
(`List Char` where character positions matter), Python ints as `Int`/`Nat`,
Python floats that only undergo comparisons, truncation and exactly
representable updates as `ℚ`, `datetime` values as whole seconds since the
epoch (`Int`; `timedelta` microseconds play no role in any claim), and
fallible operations as `Option`/`Except`.  The network and browser are
abstracted into explicit environment records of pure functions: a run of the
embedded crawler corresponds to a run of the source in which the network
delivers the recorded pages and no transport-level failure (403 block,
proxy failure, timeout) occurs; the 403/backoff machinery itself is embedded
separately as the adaptive-state transition functions.

The module `src/mpscraper/exceptions.py` is imported throughout the source
but is absent from the repository snapshot; the behaviour of its exception
classes is therefore modelled from the spec where needed (see
`GetListingsOutcome`).
-/

namespace MpScraper

/-! ## ProxyRotator (`src/fetch_listings.py`, lines 123-140)

Python source:
```
class ProxyRotator:
    def __init__(self, proxies, socks5=False):
        self.proxies = proxies
        self.socks5 = socks5
        self.idx = 0
    def current(self):
        return self.proxies[self.idx % len(self.proxies)] if self.proxies else None
    async def next_proxy(self):
        async with self._lock:
            self.idx += 1
            return self.current()
```
`idx` starts at `0` and is only ever incremented, so it is a `Nat`.
The `asyncio.Lock` only serialises the increment; the sequential model
below is the behaviour of each atomic step. -/

structure ProxyRotator where
  proxies : List String
  socks5 : Bool
  idx : Nat
  deriving Repr, DecidableEq

/-- `ProxyRotator.__init__`: index starts at zero. -/
def ProxyRotator.mk0 (proxies : List String) (socks5 : Bool) : ProxyRotator :=
  { proxies := proxies, socks5 := socks5, idx := 0 }

/-- `ProxyRotator.current`. -/
def ProxyRotator.current (r : ProxyRotator) : Option String :=
  if r.proxies.isEmpty then none
  else r.proxies[r.idx % r.proxies.length]?

/-- `ProxyRotator.next_proxy`: increment the index, return the new current. -/
def ProxyRotator.next_proxy (r : ProxyRotator) : ProxyRotator × Option String :=
  let r' : ProxyRotator := { r with idx := r.idx + 1 }
  (r', r'.current)

/-! ## Adaptive delay state (`src/mpscraper/mpscraper.py`, lines 124-166)

Python source (fields of `MpScraper.__init__` and the `_adaptive_*` /
`_recreate_driver_after_403` methods):
```
# Адаптивная задержка: 0.3 сек мин, +1 при 403, сброс после N успехов
self.__adaptive_delay = 0.3
self.__adaptive_delay_min = 0.3
self.__adaptive_success_count = 0
self.__adaptive_delay_max = 3600

def _adaptive_successes_to_reset(self):
    return max(3, 10 - int(self.__adaptive_delay) // 10)

def _adaptive_on_success(self):
    self.__adaptive_success_count += 1
    threshold = self._adaptive_successes_to_reset()
    if self.__adaptive_success_count >= threshold:
        ...log...
        self.__adaptive_delay = self.__adaptive_delay_min
        self.__adaptive_success_count = 0

def _adaptive_on_403(self):
    self.__adaptive_success_count = 0

def _recreate_driver_after_403(self):
    ...quit...; sleep(2); self.__driver = MPDriver(**self.__driver_params)
```
The delay is a Python float used only in `int(...)`, comparison and
assignment of the exactly representable constant `0.3`; it is modelled as
`ℚ`.  The browser handle is modelled by a generation counter that the
recreation step increments. -/

/-- Python `int()` on a rational: truncation toward zero
(`Int.tdiv` is T-division, matching CPython `int(float)`). -/
def pyInt (q : ℚ) : Int := Int.tdiv q.num (q.den : Int)

/-- Python floor division `a // b` on integers. -/
def pyFloorDiv (a b : Int) : Int := Int.fdiv a b

structure AdaptiveState where
  delay : ℚ
  successes : Nat
  driverGen : Nat
  deriving Repr, DecidableEq

/-- `self.__adaptive_delay_min = 0.3`. -/
def adaptiveDelayMin : ℚ := 3 / 10

/-- `self.__adaptive_delay_max = 3600` (never consulted by any method). -/
def adaptiveDelayMax : ℚ := 3600

/-- Initial adaptive state of a fresh `MpScraper`. -/
def adaptiveInit : AdaptiveState :=
  { delay := adaptiveDelayMin, successes := 0, driverGen := 0 }

/-- `MpScraper._adaptive_successes_to_reset`. -/
def adaptive_successes_to_reset (st : AdaptiveState) : Int :=
  max 3 (10 - pyFloorDiv (pyInt st.delay) 10)

/-- `MpScraper._adaptive_on_success`. -/
def adaptive_on_success (st : AdaptiveState) : AdaptiveState :=
  let c := st.successes + 1
  if (c : Int) ≥ adaptive_successes_to_reset st then
    { st with delay := adaptiveDelayMin, successes := 0 }
  else
    { st with successes := c }

/-- `MpScraper._adaptive_on_403`: only the success counter is reset. -/
def adaptive_on_403 (st : AdaptiveState) : AdaptiveState :=
  { st with successes := 0 }

/-- `MpScraper._recreate_driver_after_403`: quit and recreate the browser.
Neither `__adaptive_delay` nor `__adaptive_success_count` is touched. -/
def recreate_driver_after_403 (st : AdaptiveState) : AdaptiveState :=
  { st with driverGen := st.driverGen + 1 }

/-- The `except ForbiddenError` handler of `get_listings` with zero
configured proxies (`src/mpscraper/mpscraper.py`, lines 836-841):
`_adaptive_on_403()` followed by `_recreate_driver_after_403()`. -/
def handle403NoProxy (st : AdaptiveState) : AdaptiveState :=
  recreate_driver_after_403 (adaptive_on_403 st)

/-! ## `upsert_listings` (`src/telegram_bot/database.py`, lines 233-264)

Python source:
```
def upsert_listings(df, db_path):
    if df is None or len(df) == 0:
        return 0
    init_db(db_path)
    df = _serialize_df_for_db(df)
    conn = get_conn(db_path); existing = pd.read_sql("SELECT * FROM listings", conn); conn.close()
    if len(existing) > 0:
        merged = pd.concat([existing, df], ignore_index=True)
        merged = merged.drop_duplicates(subset=["item_id"], keep="last", ignore_index=True)
        if len(merged) < len(existing):
            logger.error(...)
            raise ValueError(...)
    else:
        merged = df
    conn = get_conn(db_path); merged.to_sql("listings", conn, if_exists="replace", index=False)
    n = len(merged); conn.close(); return n
```
A stored row is modelled as its `item_id` plus one opaque `payload` field
standing for the remaining columns after `_serialize_df_for_db` (the
serialisation only depends on the batch, so the model operates on
already-serialised rows).  The table is the ordered list of rows.
`drop_duplicates(subset=["item_id"], keep="last", ignore_index=True)` keeps,
for each `item_id`, its last occurrence, preserving the relative order of
the kept rows. -/

structure Row where
  item_id : String
  payload : String
  deriving Repr, DecidableEq

/-- Does some row of `l` carry this `item_id`? -/
def containsId (l : List Row) (i : String) : Bool :=
  l.any (fun r => r.item_id = i)

/-- `DataFrame.drop_duplicates(subset=["item_id"], keep="last")`:
a row survives exactly when no later row has the same `item_id`. -/
def keepLast : List Row → List Row
  | [] => []
  | r :: t => if containsId t r.item_id then keepLast t else r :: keepLast t

/-- Outcome of one `upsert_listings` call: the table it leaves stored and
the Python-level result.  `raised` is the `ValueError` path, which occurs
before `to_sql` runs, so the stored table is the old one. -/
inductive UpsertOutcome where
  /-- Call returned normally with this new stored table and return value. -/
  | written (table : List Row) (n : Nat)
  /-- Call raised `ValueError`; the write never happened. -/
  | raised
  deriving Repr, DecidableEq

/-- `upsert_listings(df, db_path)` acting on the stored `table`. -/
def upsert_listings (df : List Row) (table : List Row) : UpsertOutcome :=
  if df.isEmpty then .written table 0
  else if table.isEmpty then .written df df.length
  else
    let merged := keepLast (table ++ df)
    if merged.length < table.length then .raised
    else .written merged merged.length

/-- The table stored after a call of `upsert_listings` (on `raised` the
old table survives, because the exception fires before the write). -/
def upsertTable (df : List Row) (table : List Row) : List Row :=
  match upsert_listings df table with
  | .written t _ => t
  | .raised => table

/-! ## A model of `json.loads` (CPython `json` module)

`extract_config` hands candidate substrings to `json.loads` and swallows
`JSONDecodeError`, so the embedding needs an executable JSON parser.
JSON values are parsed into the `Json` inductive; numbers (ints and floats
alike) are read exactly into `ℚ`; objects follow `dict` semantics for
duplicate keys (first-occurrence position, last value).  A lone-surrogate
`\uXXXX` escape, which CPython would keep as an unpaired surrogate, is not
a valid Lean `Char` and maps to `Char.ofNat`'s default; no claim involves
surrogates. -/

inductive Json where
  | null : Json
  | bool (b : Bool) : Json
  | num (q : ℚ) : Json
  | str (s : List Char) : Json
  | arr (xs : List Json) : Json
  | obj (kvs : List (List Char × Json)) : Json

/-- JSON insignificant whitespace. -/
def isJsonWs (c : Char) : Bool := c = ' ' || c = '\t' || c = '\n' || c = '\r'

def skipWs (l : List Char) : List Char := l.dropWhile isJsonWs

def hexVal (c : Char) : Nat :=
  if c.isDigit then c.toNat - 48 else c.toLower.toNat - 87

def isHexChar (c : Char) : Bool :=
  c.isDigit || ('a' ≤ c.toLower && c.toLower ≤ 'f')

/-- Body of a JSON string, after the opening quote: returns the decoded
characters and the input after the closing quote. -/
def parseStringAux : List Char → Option (List Char × List Char)
  | [] => none
  | c :: rest =>
    if c = '"' then some ([], rest)
    else if c = '\\' then
      match rest with
      | [] => none
      | e :: r1 =>
        if e = 'u' then
          match r1 with
          | a :: b :: c2 :: d :: r2 =>
            if isHexChar a && isHexChar b && isHexChar c2 && isHexChar d then
              match parseStringAux r2 with
              | some (s, r3) =>
                some (Char.ofNat
                  (hexVal a * 4096 + hexVal b * 256 + hexVal c2 * 16 + hexVal d) :: s, r3)
              | none => none
            else none
          | _ => none
        else
          match
            (if e = '"' then some '"'
             else if e = '\\' then some '\\'
             else if e = '/' then some '/'
             else if e = 'b' then some '\x08'
             else if e = 'f' then some '\x0c'
             else if e = 'n' then some '\n'
             else if e = 'r' then some '\r'
             else if e = 't' then some '\t'
             else none : Option Char)
          with
          | some ch =>
            match parseStringAux r1 with
            | some (s, r2) => some (ch :: s, r2)
            | none => none
          | none => none
    else if c.toNat < 32 then none
    else
      match parseStringAux rest with
      | some (s, r2) => some (c :: s, r2)
      | none => none

def digitsToNat (ds : List Char) : Nat :=
  ds.foldl (fun n c => n * 10 + (c.toNat - 48)) 0

/-- JSON number: `-? int frac? exp?`, read exactly into `ℚ`. -/
def parseNumber (l : List Char) : Option (Json × List Char) :=
  let signAndRest : Int × List Char :=
    match l with
    | '-' :: t => (-1, t)
    | _ => (1, l)
  let sign := signAndRest.1
  let l1 := signAndRest.2
  match l1 with
  | [] => none
  | c0 :: _ =>
    if !c0.isDigit then none
    else
      let intPart : List Char × List Char :=
        match l1 with
        | '0' :: t => (['0'], t)
        | _ => l1.span (fun c => c.isDigit)
      let intDs := intPart.1
      let l2 := intPart.2
      let fracPart : Option (List Char × List Char) :=
        match l2 with
        | '.' :: t =>
          let p := t.span (fun c => c.isDigit)
          if p.1.isEmpty then none else some p
        | _ => some ([], l2)
      match fracPart with
      | none => none
      | some (fracDs, l3) =>
        let expPart : Option (Int × List Char) :=
          match l3 with
          | 'e' :: t | 'E' :: t =>
            let se : Int × List Char :=
              match t with
              | '+' :: u => (1, u)
              | '-' :: u => (-1, u)
              | _ => (1, t)
            let p := se.2.span (fun c => c.isDigit)
            if p.1.isEmpty then none
            else some (se.1 * (digitsToNat p.1 : Int), p.2)
          | _ => some (0, l3)
        match expPart with
        | none => none
        | some (e, l4) =>
          let mant : ℚ :=
            (digitsToNat intDs : ℚ) + (digitsToNat fracDs : ℚ) / (10 : ℚ) ^ fracDs.length
          some (.num ((sign : ℚ) * mant * (10 : ℚ) ^ e), l4)

/-- Last value bound to key `k` in `(k, v) :: t` (CPython `dict` keeps the
last value for a repeated key). -/
def lastValue (k : List Char) (v : Json) (t : List (List Char × Json)) : Json :=
  (t.filter (fun p => p.1 == k)).foldl (fun _ p => p.2) v

/-- `dict` duplicate-key semantics, fuel-indexed so that it reduces
definitionally (the fuel strictly dominates the list length). -/
def dedupKeysF : Nat → List (List Char × Json) → List (List Char × Json)
  | 0, _ => []
  | _, [] => []
  | fuel + 1, (k, v) :: t =>
    (k, lastValue k v t) :: dedupKeysF fuel (t.filter (fun p => !(p.1 == k)))

/-- `dict` duplicate-key semantics: first-occurrence position, last value. -/
def dedupKeys (l : List (List Char × Json)) : List (List Char × Json) :=
  dedupKeysF l.length l

mutual

/-- One JSON value (fuel-indexed; `jsonParse` supplies ample fuel). -/
def parseValue : Nat → List Char → Option (Json × List Char)
  | 0, _ => none
  | fuel + 1, l =>
    match skipWs l with
    | [] => none
    | c :: rest =>
      if c = '\x7b' then
        match skipWs rest with
        | '\x7d' :: r2 => some (.obj [], r2)
        | r2 =>
          match parseMembers fuel r2 with
          | some (kvs, r3) => some (.obj (dedupKeys kvs), r3)
          | none => none
      else if c = '[' then
        match skipWs rest with
        | ']' :: r2 => some (.arr [], r2)
        | r2 =>
          match parseElems fuel r2 with
          | some (xs, r3) => some (.arr xs, r3)
          | none => none
      else if c = '"' then
        match parseStringAux rest with
        | some (s, r2) => some (.str s, r2)
        | none => none
      else if c = 't' then
        match rest with
        | 'r' :: 'u' :: 'e' :: r2 => some (.bool true, r2)
        | _ => none
      else if c = 'f' then
        match rest with
        | 'a' :: 'l' :: 's' :: 'e' :: r2 => some (.bool false, r2)
        | _ => none
      else if c = 'n' then
        match rest with
        | 'u' :: 'l' :: 'l' :: r2 => some (.null, r2)
        | _ => none
      else parseNumber (c :: rest)

/-- Members of a JSON object, up to and including the closing brace. -/
def parseMembers : Nat → List Char → Option (List (List Char × Json) × List Char)
  | 0, _ => none
  | fuel + 1, l =>
    match skipWs l with
    | '"' :: r1 =>
      match parseStringAux r1 with
      | none => none
      | some (k, r2) =>
        match skipWs r2 with
        | ':' :: r3 =>
          match parseValue fuel r3 with
          | none => none
          | some (v, r4) =>
            match skipWs r4 with
            | ',' :: r5 =>
              match parseMembers fuel r5 with
              | some (kvs, r6) => some ((k, v) :: kvs, r6)
              | none => none
            | '\x7d' :: r5 => some ([(k, v)], r5)
            | _ => none
        | _ => none
    | _ => none

/-- Elements of a JSON array, up to and including the closing bracket. -/
def parseElems : Nat → List Char → Option (List Json × List Char)
  | 0, _ => none
  | fuel + 1, l =>
    match parseValue fuel l with
    | none => none
    | some (v, r1) =>
      match skipWs r1 with
      | ',' :: r2 =>
        match parseElems fuel r2 with
        | some (xs, r3) => some (v :: xs, r3)
        | none => none
      | ']' :: r2 => some ([v], r2)
      | _ => none

end

/-- `json.loads`: parse one value and require only whitespace after it. -/
def jsonParse (l : List Char) : Option Json :=
  match parseValue (l.length + 1) l with
  | none => none
  | some (v, rest) => if (skipWs rest).isEmpty then some v else none

/-! ## `extract_config` (`src/fetch_listings.py`, lines 402-426)

Python source:
```
def extract_config(html):
    idx = html.find("window.__CONFIG__")
    if idx == -1:
        return None
    start = html.find("=", idx) + 1
    if start <= 0:
        return None
    depth = 0
    json_start = -1
    for i, c in enumerate(html[start:], start):
        if c == "\x7b":
            if depth == 0:
                json_start = i
            depth += 1
        elif c == "\x7d":
            depth -= 1
            if depth == 0:
                try:
                    return json.loads(html[json_start : i + 1])
                except json.JSONDecodeError:
                    pass
                break
    return None
```
The scan counts every brace character, including braces inside JSON string
literals.  Strings are modelled as `List Char` so that `i` is a character
position, exactly as in Python. -/

/-- `str.find(needle)`: index of the first occurrence, `none` for `-1`. -/
def findSub : List Char → List Char → Option Nat
  | [], needle => if needle.isEmpty then some 0 else none
  | c :: t, needle =>
    if needle == (c :: t).take needle.length then some 0
    else (findSub t needle).map (· + 1)

/-- `str.find(ch, i)`: index of the first occurrence at position `≥ i`. -/
def findCharFrom (l : List Char) (ch : Char) (i : Nat) : Option Nat :=
  ((l.drop i).findIdx? (fun c => c = ch)).map (· + i)

/-- Python slice `l[a : stop]` for a possibly negative start index. -/
def pySliceFrom (l : List Char) (a : Int) (stop : Nat) : List Char :=
  let s : Nat := if a < 0 then ((l.length : Int) + a).toNat else a.toNat
  (l.take stop).drop s

/-- The `for i, c in enumerate(html[start:], start)` brace scan.
`full` is the whole document (slices are taken from it), the second
argument is the yet unscanned tail, `i` the absolute position of its head,
`depth` the running brace depth and `js` the Python `json_start`. -/
def scanLoop (full : List Char) : List Char → Nat → Int → Int → Option Json
  | [], _, _, _ => none
  | c :: rest, i, depth, js =>
    if c = '\x7b' then
      scanLoop full rest (i + 1) (depth + 1) (if depth = 0 then (i : Int) else js)
    else if c = '\x7d' then
      if depth - 1 = 0 then
        match jsonParse (pySliceFrom full js (i + 1)) with
        | some v => some v
        | none => none
      else scanLoop full rest (i + 1) (depth - 1) js
    else scanLoop full rest (i + 1) depth js

def CONFIG_MARKER : List Char := "window.__CONFIG__".toList

/-- `extract_config(html)`. -/
def extract_config (html : List Char) : Option Json :=
  match findSub html CONFIG_MARKER with
  | none => none
  | some idx =>
    match findCharFrom html '=' idx with
    | none => none
    | some e => scanLoop html (html.drop (e + 1)) (e + 1) 0 (-1)

/-- Count of opening minus closing braces, every character counted
(braces inside string literals included, as in the source's scan). -/
def braceDelta (l : List Char) : Int :=
  (l.count '\x7b' : Int) - (l.count '\x7d' : Int)

/-! ## Timestamps and ages

`datetime` values are modelled as whole seconds since the epoch in UTC
(`Int`); ISO-8601 parsing (`datetime.fromisoformat`) is an explicit
environment function `String → Option Int`, `none` being the
`ValueError`/`TypeError` outcome; `datetime.now(timezone.utc)` is the
environment's `now`. -/

/-- `s.replace("Z", "+00:00")` (every occurrence). -/
def replaceZList : List Char → List Char
  | [] => []
  | c :: t =>
    if c = 'Z' then '+' :: '0' :: '0' :: ':' :: '0' :: '0' :: replaceZList t
    else c :: replaceZList t

def replaceZ (s : String) : String := String.mk (replaceZList s.toList)

/-- `diff_hours` (`src/mpscraper/utils.py`): `diff.days * 24 +
diff.seconds / 3600` on the `timedelta` `last - first`, with `timedelta`
normalisation `0 ≤ seconds < 86400` (microseconds are zero since datetimes
are whole seconds here). -/
def diff_hours (first last : Int) : ℚ :=
  let diff := last - first
  let days := Int.fdiv diff 86400
  let seconds := diff - days * 86400
  (days * 24 : ℚ) + (seconds : ℚ) / 3600

/-- `age_hours` (`src/fetch_listings.py`, lines 388-399): hours since
publication, `none` when the timestamp is absent, empty, or fails to
parse (the exception is swallowed).  `delta.total_seconds() / 3600` is
exactly `(now - dt) / 3600`. -/
def age_hours (fromiso : String → Option Int) (now : Int) (since : Option String) :
    Option ℚ :=
  match since with
  | none => none
  | some s =>
    if s = "" then none
    else
      match fromiso (replaceZ s) with
      | none => none
      | some dt => some (((now - dt : Int) : ℚ) / 3600)

/-! ## `MpScraper.get_listings` (`src/mpscraper/mpscraper.py`, lines 538-871)

The category/page/item traversal is embedded as explicit folds.  The
environment `ScrapeEnv` abstracts the browser: `getDetails` is the outcome
of `__get_listing_details` on a listing URL (`none` is the permanent-failure
path in which the inner `try` ends with `listing_details is None` and the
listing is skipped with `max_listings -= 1`), `fromiso` models
`datetime.fromisoformat` (with the tz-naive fallback to UTC folded in) and
`now`/`nowIso` model `get_utc_now`/`get_utc_iso_now`.

A run of this model corresponds to a source run in which the network
delivers each category page deterministically and no 403/proxy/timeout
event fires (those handlers re-enter the same loop without changing the
traversal state modelled here; the adaptive-delay bookkeeping they touch is
embedded separately above).  Two further conventions:

* `raise CategoryStale(listings=listings, ...)` at line 772: the module
  `mpscraper/exceptions.py` is absent from the repository snapshot.
  Modelled from the spec: the "category is stale" condition unwinds the
  whole traversal and hands the collected listings to the caller (spec §4.5
  and §9; the callers in `__main__.py` and `watch_runner.py` catch
  `CategoryStale` around `get_listings` and read `.listings`), outcome
  `GetListingsOutcome.stale`.
* `raise UnexpectedCategoryId(...)` at line 706 is caught by
  `except MPError: continue`, which refetches the same page without
  advancing `current_page`; with a deterministic page function that retry
  recurs forever, so the model stops the category there instead
  (`PageResult.catStop`, folded into a category stop).  No claim settled
  here reaches this branch.
* The `on_batch`/`on_new_listing` callbacks do not alter the traversal
  state and are omitted.
* `item_id[0]` on an empty item ID raises `IndexError`, which the
  `except Exception` arm converts to `ListingsError(listings=listings)`:
  outcome `GetListingsOutcome.failed`.

The state also records, as `fetched`, the listing URLs passed to
`__get_listing_details` — pure instrumentation used to state that an item's
detail page was never fetched. -/

def MARTKPLAATS_BASE_URL : String := "https://marktplaats.nl"

/-- One entry of `page_props["searchRequestAndResponse"]["listings"]`,
restricted to the keys the traversal reads. -/
structure ResListing where
  itemId : String
  categoryId : Int
  title : String
  vipUrl : String
  /-- `extraExtraLargeUrl` of each entry of `pictures`. -/
  pictures : List String
  /-- `location`: `countryAbbreviation` and `cityName` when present. -/
  location : Option (String × String)
  verticals : List String
  /-- `sellerInformation.sellerId` when present. -/
  sellerId : Option String
  /-- Fields only the fast-mode constructor reads. -/
  description : String
  priceType : String
  priceCents : Int
  date : String
  deriving Repr, DecidableEq

/-- `ListingDetails` (`src/mpscraper/listing.py`). -/
structure ListingDetails where
  description : String
  ad_type : String
  types : List String
  services : List String
  price_type : String
  price_cents : Int
  view_count : Int
  favorited_count : Int
  listed_timestamp : String
  deriving Repr, DecidableEq

/-- `Listing` (`src/mpscraper/listing.py`), restricted to the fields the
two constructors in `get_listings` fill from data the embedding carries
(the remaining fast-mode extras default exactly as in the dataclass and
never influence the traversal). -/
structure Listing where
  item_id : String
  parent_category_id : Int
  child_category_id : Int
  category_verticals : List String
  ad_type : String
  title : String
  description : String
  types : List String
  services : List String
  price_type : String
  price_cents : Int
  image_urls : List String
  listing_url : String
  country_code : String
  city_name : String
  seller_id : String
  listed_timestamp : String
  crawled_timestamp : String
  view_count : Int
  favorited_count : Int
  deriving Repr, DecidableEq

/-- `format_text` (`src/mpscraper/utils.py`): whitespace runs collapsed to
single spaces, ends trimmed (`" ".join(text.split())`). -/
def format_text (s : String) : String :=
  String.intercalate " " ((s.split (fun c => c.isWhitespace)).filter (fun t => t ≠ ""))

structure ScrapeEnv where
  /-- Outcome of `MpScraper.__get_listing_details` at a listing URL. -/
  getDetails : String → Option ListingDetails
  /-- `datetime.fromisoformat` (+ naive→UTC fallback), as UTC seconds. -/
  fromiso : String → Option Int
  /-- `get_utc_now()` in UTC seconds. -/
  now : Int
  /-- `get_utc_iso_now()`. -/
  nowIso : String

/-- The non-fast `Listing(...)` construction (lines 801-822). -/
def mkListingSlow (env : ScrapeEnv) (r : ResListing) (parentCategoryId : Int)
    (listing_url : String) (d : ListingDetails) : Listing :=
  { item_id := r.itemId
    parent_category_id := parentCategoryId
    child_category_id := r.categoryId
    category_verticals := r.verticals
    ad_type := d.ad_type
    title := format_text r.title
    description := format_text d.description
    types := d.types
    services := d.services
    price_type := d.price_type
    price_cents := d.price_cents
    image_urls := r.pictures
    listing_url := listing_url
    country_code := (r.location.map Prod.fst).getD ""
    city_name := (r.location.map Prod.snd).getD ""
    seller_id := r.sellerId.getD ""
    listed_timestamp := d.listed_timestamp
    crawled_timestamp := env.nowIso
    view_count := d.view_count
    favorited_count := d.favorited_count }

/-- `MpScraper.__listing_from_res_listing` (fast mode, lines 412-536),
restricted to the carried fields; note `ad_type` is the price type and
`listed_timestamp` is the marker string from the index page. -/
def listing_from_res_listing (env : ScrapeEnv) (r : ResListing)
    (parentCategoryId : Int) : Listing :=
  { item_id := r.itemId
    parent_category_id := parentCategoryId
    child_category_id := r.categoryId
    category_verticals := r.verticals
    ad_type := r.priceType
    title := format_text r.title
    description := format_text r.description
    types := []
    services := []
    price_type := r.priceType
    price_cents := r.priceCents
    image_urls := r.pictures
    listing_url := MARTKPLAATS_BASE_URL ++ r.vipUrl
    country_code := (r.location.map Prod.fst).getD ""
    city_name := (r.location.map Prod.snd).getD ""
    seller_id := (r.sellerId.getD "")
    listed_timestamp := r.date
    crawled_timestamp := env.nowIso
    view_count := 0
    favorited_count := 0 }

structure CrawlState where
  listings : List Listing
  item_ids : List String
  maxListings : Int
  /-- Instrumentation: listing URLs handed to `__get_listing_details`. -/
  fetched : List String
  deriving Repr, DecidableEq

inductive ItemStep where
  /-- Fall through to the next `res_listing`. -/
  | cont (st : CrawlState)
  /-- `if len(listings) == limit: break`. -/
  | pageBreak (st : CrawlState)
  /-- `raise CategoryStale(listings=listings, ...)`. -/
  | staleStop (st : CrawlState)
  /-- `ListingsError` path (empty item ID). -/
  | failStop (st : CrawlState)
  /-- `raise UnexpectedCategoryId` (see the section comment). -/
  | catStop (st : CrawlState)
  deriving Repr, DecidableEq

/-- Append an accepted listing (lines 824-829):
`listings.append(listing); item_ids.add(listing.item_id)`. -/
def emitListing (st : CrawlState) (l : Listing) : CrawlState :=
  { st with listings := st.listings ++ [l], item_ids := st.item_ids ++ [l.item_id] }

/-- The body of `for res_listing in res_listings` (lines 684-829). -/
def processItem (env : ScrapeEnv) (fast : Bool) (catCount : Nat)
    (parentCategoryId categoryId : Int) (limit listings_count : Int)
    (maxAge : Option ℚ) (st : CrawlState) (r : ResListing) : ItemStep :=
  if (st.listings.length : Int) = limit then .pageBreak st
  else
    match r.itemId.toList with
    | [] => .failStop st
    | c :: _ =>
      if c = 'a' then .cont st
      else if r.itemId ∈ st.item_ids then
        .cont { st with
          maxListings :=
            if limit = listings_count then st.maxListings - 1 else st.maxListings }
      else if catCount > 1 ∧ r.categoryId ≠ categoryId then .catStop st
      else
        let listing_url := MARTKPLAATS_BASE_URL ++ r.vipUrl
        if fast then
          .cont (emitListing st (listing_from_res_listing env r parentCategoryId))
        else
          let st1 := { st with fetched := st.fetched ++ [listing_url] }
          match env.getDetails listing_url with
          | none => .cont { st1 with maxListings := st1.maxListings - 1 }
          | some d =>
            let accept : ItemStep :=
              .cont (emitListing st1 (mkListingSlow env r parentCategoryId listing_url d))
            match maxAge with
            | none => accept
            | some m =>
              match env.fromiso (replaceZ d.listed_timestamp) with
              | none => accept
              | some dt =>
                if diff_hours dt env.now > m then .staleStop st1
                else accept

inductive PageResult where
  | done (st : CrawlState)
  | staleStop (st : CrawlState)
  | failStop (st : CrawlState)
  | catStop (st : CrawlState)
  deriving Repr, DecidableEq

/-- Fold of `processItem` over one page's `res_listings`. -/
def processPage (env : ScrapeEnv) (fast : Bool) (catCount : Nat)
    (parentCategoryId categoryId : Int) (limit listings_count : Int)
    (maxAge : Option ℚ) : CrawlState → List ResListing → PageResult
  | st, [] => .done st
  | st, r :: rs =>
    match processItem env fast catCount parentCategoryId categoryId limit
        listings_count maxAge st r with
    | .cont st' =>
      processPage env fast catCount parentCategoryId categoryId limit
        listings_count maxAge st' rs
    | .pageBreak st' => .done st'
    | .staleStop st' => .staleStop st'
    | .failStop st' => .failStop st'
    | .catStop st' => .catStop st'

inductive CatResult where
  | done (st : CrawlState)
  | staleStop (st : CrawlState)
  | failStop (st : CrawlState)
  deriving Repr, DecidableEq

/-- The `while len(listings) < max_listings` pagination loop of one
(sub)category (lines 594-869).  `pages` are the successive index pages the
site serves; after they run out the next page is empty and the loop breaks
(`if len(res_listings) == 0: break`). -/
def processCategory (env : ScrapeEnv) (fast : Bool) (catCount : Nat)
    (parentCategoryId categoryId : Int) (limit listings_count : Int)
    (maxAge : Option ℚ) : CrawlState → List (List ResListing) → CatResult
  | st, [] => .done st
  | st, pg :: rest =>
    if (st.listings.length : Int) < st.maxListings then
      if pg.isEmpty then .done st
      else
        match processPage env fast catCount parentCategoryId categoryId limit
            listings_count maxAge st pg with
        | .done st' =>
          processCategory env fast catCount parentCategoryId categoryId limit
            listings_count maxAge st' rest
        | .staleStop st' => .staleStop st'
        | .failStop st' => .failStop st'
        | .catStop st' => .done st'
    else .done st

inductive GetListingsOutcome where
  /-- Normal return of the listings list. -/
  | ok (st : CrawlState)
  /-- `CategoryStale` escaped, carrying everything collected so far. -/
  | stale (st : CrawlState)
  /-- `ListingsError` escaped, carrying everything collected so far. -/
  | failed (st : CrawlState)
  deriving Repr, DecidableEq

/-- The collected listings of an outcome (return value, `CategoryStale
.listings` or `ListingsError.listings` respectively). -/
def GetListingsOutcome.listings : GetListingsOutcome → List Listing
  | .ok st => st.listings
  | .stale st => st.listings
  | .failed st => st.listings

/-- Detail-page URLs fetched during the run (instrumentation). -/
def GetListingsOutcome.fetched : GetListingsOutcome → List String
  | .ok st => st.fetched
  | .stale st => st.fetched
  | .failed st => st.fetched

/-- The `for cat_idx, (category_id, category_url) in enumerate(categories)`
loop. -/
def processCategories (env : ScrapeEnv) (fast : Bool) (catCount : Nat)
    (parentCategoryId : Int) (limit listings_count : Int) (maxAge : Option ℚ) :
    CrawlState → List (Int × List (List ResListing)) → GetListingsOutcome
  | st, [] => .ok st
  | st, (categoryId, pages) :: rest =>
    match processCategory env fast catCount parentCategoryId categoryId limit
        listings_count maxAge st pages with
    | .done st' =>
      processCategories env fast catCount parentCategoryId limit listings_count
        maxAge st' rest
    | .staleStop st' => .stale st'
    | .failStop st' => .failed st'

/-- `MpScraper.get_listings`.  `categories` is the resolved subcategory
list (or `[parent]`), each with the pages its URL serves;
`listings_count` is the value the counting step produced (site count, or
the `skip_count`/fallback value); `existing_item_ids` is copied into the
round-local seen set (line 551). -/
def get_listings (env : ScrapeEnv) (fast : Bool) (parentCategoryId : Int)
    (categories : List (Int × List (List ResListing)))
    (limit0 listings_count : Int) (existing_item_ids : List String)
    (maxAge : Option ℚ) : GetListingsOutcome :=
  let limit : Int :=
    if limit0 > listings_count ∨ limit0 = 0 then listings_count else limit0
  let st0 : CrawlState :=
    { listings := [], item_ids := existing_item_ids,
      maxListings := max limit 1, fetched := [] }
  processCategories env fast categories.length parentCategoryId limit
    listings_count maxAge st0 categories

/-! ## `_worker_category` (`src/fetch_listings.py`, lines 510-606)

The model covers one dequeued category task with the index page already
fetched and parsed (`all_listings`); `fetchDetail` abstracts
`_fetch_detail_with_retry` (`none` is any of its failure returns).  The
queue/semaphore plumbing and the Telegram/email side effects do not touch
the traversal state.  As above, `fetched` records the listing URLs actually
fetched. -/

structure WItem where
  itemId : String
  title : String
  vipUrl : String
  deriving Repr, DecidableEq

/-- The `parse_listing_details` dictionary, restricted to the keys the
worker loop reads. -/
structure WDetails where
  item_id : String
  title : String
  listed_timestamp : Option String
  deriving Repr, DecidableEq

structure WorkerEnv where
  /-- `_fetch_detail_with_retry` outcome at a listing URL. -/
  fetchDetail : String → Option WDetails
  fromiso : String → Option Int
  now : Int

/-- The `to_fetch` construction (lines 549-558); `acc` is the running
`len(to_fetch)` (`saved` is `0` at this point). -/
def workerToFetch (existing : List String) (limit_val : Int) (acc : Nat) :
    List WItem → List WItem
  | [] => []
  | it :: ts =>
    if limit_val > 0 ∧ (acc : Int) ≥ limit_val then []
    else if it.itemId ∈ existing then workerToFetch existing limit_val acc ts
    else if it.vipUrl = "" then workerToFetch existing limit_val acc ts
    else it :: workerToFetch existing limit_val (acc + 1) ts

structure WorkerSt where
  existing : List String
  saved : List WDetails
  remaining : Option Int
  fetched : List String
  deriving Repr, DecidableEq

/-- The `for item in to_fetch` loop (lines 561-601); the returned `Bool`
is the `stale` flag. -/
def workerFetchLoop (env : WorkerEnv) (maxAge : ℚ) :
    WorkerSt → List WItem → WorkerSt × Bool
  | st, [] => (st, false)
  | st, it :: ts =>
    if (match st.remaining with | some r => decide (r ≤ 0) | none => false) then (st, false)
    else
      let url := MARTKPLAATS_BASE_URL ++ it.vipUrl
      let st1 :=
        if it.vipUrl = "" then st else { st with fetched := st.fetched ++ [url] }
      match (if it.vipUrl = "" then none else env.fetchDetail url) with
      | none => workerFetchLoop env maxAge st1 ts
      | some d =>
        let save : WorkerSt :=
          { st1 with
            saved := st1.saved ++ [d]
            existing := st1.existing ++ [d.item_id]
            remaining :=
              match st1.remaining with
              | some r => if r > 0 then some (r - 1) else some r
              | none => none }
        match age_hours env.fromiso env.now d.listed_timestamp with
        | some h => if h ≥ maxAge then (st1, true) else workerFetchLoop env maxAge save ts
        | none => workerFetchLoop env maxAge save ts

/-- One `_worker_category` pass over a successfully parsed index page. -/
def worker_category (env : WorkerEnv) (maxAge : ℚ) (allListings : List WItem)
    (remaining : Option Int) (existing : List String) : WorkerSt × Bool :=
  let limit_val : Int := match remaining with | some r => r | none => 0
  let toFetch := workerToFetch existing limit_val 0 allListings
  workerFetchLoop env maxAge
    { existing := existing, saved := [], remaining := remaining, fetched := [] }
    toFetch

/-! # Theorems -/

/-! ## Proxy rotation (claim C8) -/

/-- C8: proxy pool rotation contract.  `current()` is `None` on an empty
pool and otherwise the endpoint at `idx % len(proxies)`; `next_proxy()`
advances the index by one (so rotation wraps via the modulo); and on a pool
with zero or one entries `next_proxy()` returns exactly what `current()`
returned before the call. -/
theorem proxy_rotator_contract (r : ProxyRotator) :
    (r.proxies = [] → r.current = none) ∧
    (r.proxies ≠ [] → r.current = r.proxies[r.idx % r.proxies.length]?) ∧
    (r.next_proxy.1 = { r with idx := r.idx + 1 } ∧
      r.next_proxy.2 = ProxyRotator.current { r with idx := r.idx + 1 }) ∧
    (r.proxies.length ≤ 1 → r.next_proxy.2 = r.current) := by
  refine ⟨?_, ?_, ⟨rfl, rfl⟩, ?_⟩
  · intro h
    simp [ProxyRotator.current, h]
  · intro h
    simp [ProxyRotator.current, List.isEmpty_iff, h]
  · intro h
    match r, h with
    | ⟨[], s, i⟩, _ => simp [ProxyRotator.next_proxy, ProxyRotator.current]
    | ⟨[p], s, i⟩, _ =>
      simp [ProxyRotator.next_proxy, ProxyRotator.current, Nat.mod_one]
    | ⟨a :: b :: t, s, i⟩, h => simp at h

/-- Witness for `proxy_rotator_contract` at a concrete two-endpoint pool. -/
theorem proxy_rotator_contract_witness :
    (⟨["p1", "p2"], false, 5⟩ : ProxyRotator).proxies ≠ [] ∧
    (⟨["p1", "p2"], false, 5⟩ : ProxyRotator).current =
      ["p1", "p2"][5 % 2]? :=
  ⟨by decide, (proxy_rotator_contract ⟨["p1", "p2"], false, 5⟩).2.1 (by decide)⟩

/-! ## Adaptive delay on 403 with no proxies (claim C3)

The claim says a rate-limit classification with zero configured proxies
recreates the session *and strictly increases* `__adaptive_delay` by a
fixed increment.  The handler (`_adaptive_on_403` followed by
`_recreate_driver_after_403`, lines 836-841) recreates the browser and
resets the success counter but never touches `__adaptive_delay`: no method
of the class ever increases it, although the initialisation comment
(line 124) documents "+1 при 403".  The code therefore contradicts its own
documentation; the theorem records what it actually does. -/

/-- C3: the 403 handler with zero proxies recreates the browser session
and resets the success counter, but leaves the adaptive delay exactly
unchanged — it does not strictly increase. -/
theorem delay_unchanged_on_403_without_proxies (st : AdaptiveState) :
    (handle403NoProxy st).driverGen = st.driverGen + 1 ∧
    (handle403NoProxy st).delay = st.delay ∧
    (handle403NoProxy st).successes = 0 :=
  ⟨rfl, rfl, rfl⟩

/-! ## Adaptive success-reset threshold (claim C9) -/

/-- For a nonnegative delay, Python `int()` agrees with the floor. -/
theorem pyInt_eq_floor (q : ℚ) (hq : 0 ≤ q) : pyInt q = ⌊q⌋ := by
  rw [pyInt, Rat.floor_def]
  exact Int.tdiv_eq_ediv (Rat.num_nonneg.mpr hq) (Int.ofNat_nonneg _)

/-- C9: the success threshold equals `max(3, 10 - ⌊delay⌋ / 10)`, is
monotonically non-increasing in the delay, never drops below `3`, and when
the incremented success counter reaches it, `_adaptive_on_success` resets
the delay to the floor value and the counter to zero. -/
theorem adaptive_reset_threshold (d1 d2 : ℚ) (st : AdaptiveState)
    (h0 : 0 ≤ d1) (h12 : d1 ≤ d2) (h0s : 0 ≤ st.delay)
    (hreach : (st.successes + 1 : Int) ≥ adaptive_successes_to_reset st) :
    adaptive_successes_to_reset st = max 3 (10 - ⌊st.delay⌋ / 10) ∧
    adaptive_successes_to_reset ⟨d2, 0, 0⟩ ≤ adaptive_successes_to_reset ⟨d1, 0, 0⟩ ∧
    3 ≤ adaptive_successes_to_reset ⟨d1, 0, 0⟩ ∧
    adaptive_on_success st =
      { delay := adaptiveDelayMin, successes := 0, driverGen := st.driverGen } := by
  have hfd : ∀ x : Int, pyFloorDiv x 10 = x / 10 := fun x =>
    Int.fdiv_eq_ediv x (by norm_num)
  refine ⟨?_, ?_, le_max_left _ _, ?_⟩
  · rw [adaptive_successes_to_reset, hfd, pyInt_eq_floor _ h0s]
  · have hfl : ⌊d1⌋ ≤ ⌊d2⌋ := Int.floor_le_floor h12
    have h2 : (0 : ℚ) ≤ d2 := le_trans h0 h12
    simp only [adaptive_successes_to_reset, hfd,
      pyInt_eq_floor _ h0, pyInt_eq_floor _ h2]
    have := Int.ediv_le_ediv (by norm_num : (0 : Int) < 10) hfl
    omega
  · rw [adaptive_on_success]
    have h' : ((st.successes + 1 : ℕ) : Int) ≥ adaptive_successes_to_reset st := by
      exact_mod_cast hreach
    rw [if_pos h']

/-- Witness for `adaptive_reset_threshold`: delay `25`, six prior
successes (threshold `max(3, 10 - 2) = 8`). -/
theorem adaptive_reset_threshold_witness :
    (0 : ℚ) ≤ 0 ∧ (0 : ℚ) ≤ 25 ∧ (0 : ℚ) ≤ (⟨25, 7, 4⟩ : AdaptiveState).delay ∧
    ((⟨25, 7, 4⟩ : AdaptiveState).successes + 1 : Int) ≥
      adaptive_successes_to_reset ⟨25, 7, 4⟩ ∧
    adaptive_on_success ⟨25, 7, 4⟩ =
      { delay := adaptiveDelayMin, successes := 0, driverGen := 4 } := by
  have h : adaptive_successes_to_reset ⟨25, 7, 4⟩ = 8 := by
    have h1 : pyInt 25 = 25 := rfl
    rw [adaptive_successes_to_reset]
    simp only [h1]
    rfl
  have hr : ((⟨25, 7, 4⟩ : AdaptiveState).successes + 1 : Int) ≥
      adaptive_successes_to_reset ⟨25, 7, 4⟩ := by
    rw [h]; norm_num
  exact ⟨le_refl 0, by norm_num, by norm_num, hr,
    (adaptive_reset_threshold 0 25 ⟨25, 7, 4⟩ (le_refl 0) (by norm_num)
      (by norm_num) hr).2.2.2⟩

/-! ## Keep-last deduplication lemmas (for claims C5 and C6) -/

theorem containsId_nil (i : String) : containsId [] i = false := rfl

theorem containsId_cons (r : Row) (t : List Row) (i : String) :
    containsId (r :: t) i = (decide (r.item_id = i) || containsId t i) := by
  simp [containsId]

theorem containsId_append (a b : List Row) (i : String) :
    containsId (a ++ b) i = (containsId a i || containsId b i) := by
  simp [containsId, List.any_append]

theorem containsId_eq_true_iff (l : List Row) (i : String) :
    containsId l i = true ↔ ∃ r ∈ l, r.item_id = i := by
  simp [containsId]

theorem containsId_filter_of_not (b t : List Row) (i : String)
    (h : containsId b i = false) :
    containsId (t.filter (fun x => !containsId b x.item_id)) i = containsId t i := by
  induction t with
  | nil => rfl
  | cons r t ih =>
    by_cases hr : r.item_id = i
    · subst hr
      simp [List.filter_cons, h, containsId_cons, ih]
    · cases hb : containsId b r.item_id with
      | true => simp [List.filter_cons, hb, containsId_cons, hr, ih]
      | false => simp [List.filter_cons, hb, containsId_cons, hr, ih]

theorem keepLast_append (a b : List Row) :
    keepLast (a ++ b) =
      keepLast (a.filter (fun r => !containsId b r.item_id)) ++ keepLast b := by
  induction a with
  | nil => simp [keepLast]
  | cons r t ih =>
    cases hb : containsId b r.item_id with
    | true =>
      have hca : containsId (t ++ b) r.item_id = true := by
        simp [containsId_append, hb]
      simp [keepLast, List.filter_cons, hb, hca, ih]
    | false =>
      have hca : containsId (t ++ b) r.item_id = containsId t r.item_id := by
        simp [containsId_append, hb]
      have hft := containsId_filter_of_not b t r.item_id hb
      cases ht : containsId t r.item_id with
      | true => simp [keepLast, List.filter_cons, hb, hca, ht, hft, ih]
      | false => simp [keepLast, List.filter_cons, hb, hca, ht, hft, ih]

theorem mem_keepLast_sub {x : Row} {l : List Row} (h : x ∈ keepLast l) : x ∈ l := by
  induction l with
  | nil => simp [keepLast] at h
  | cons r t ih =>
    rw [keepLast] at h
    by_cases hc : containsId t r.item_id
    · rw [if_pos hc] at h
      exact List.mem_cons_of_mem r (ih h)
    · rw [if_neg hc] at h
      rcases List.mem_cons.mp h with h | h
      · exact h ▸ List.mem_cons_self r t
      · exact List.mem_cons_of_mem r (ih h)

theorem keepLast_length_le (l : List Row) : (keepLast l).length ≤ l.length := by
  induction l with
  | nil => simp [keepLast]
  | cons r t ih =>
    rw [keepLast]
    by_cases hc : containsId t r.item_id
    · rw [if_pos hc]
      simp only [List.length_cons]
      omega
    · rw [if_neg hc]
      simp only [List.length_cons]
      omega

theorem keepLast_eq_of_length (l : List Row)
    (h : (keepLast l).length = l.length) : keepLast l = l := by
  induction l with
  | nil => rfl
  | cons r t ih =>
    rw [keepLast] at h ⊢
    by_cases hc : containsId t r.item_id
    · rw [if_pos hc] at h
      have := keepLast_length_le t
      simp only [List.length_cons] at h
      omega
    · rw [if_neg hc] at h ⊢
      simp only [List.length_cons, Nat.succ_inj] at h
      rw [ih h]

theorem containsId_keepLast (l : List Row) (i : String) :
    containsId (keepLast l) i = containsId l i := by
  induction l with
  | nil => rfl
  | cons r t ih =>
    rw [keepLast]
    by_cases hr : r.item_id = i
    · subst hr
      by_cases hc : containsId t r.item_id
      · rw [if_pos hc, ih, containsId_cons]
        simp [hc]
      · rw [if_neg hc, containsId_cons, containsId_cons, ih]
    · by_cases hc : containsId t r.item_id
      · rw [if_pos hc, ih, containsId_cons]
        simp [hr]
      · rw [if_neg hc, containsId_cons, containsId_cons, ih]

theorem keepLast_ids_nodup (l : List Row) :
    ((keepLast l).map Row.item_id).Nodup := by
  induction l with
  | nil => simp [keepLast]
  | cons r t ih =>
    rw [keepLast]
    by_cases hc : containsId t r.item_id
    · rw [if_pos hc]
      exact ih
    · rw [if_neg hc]
      refine List.nodup_cons.mpr ⟨?_, ih⟩
      intro hmem
      rcases List.mem_map.mp hmem with ⟨x, hx, hxi⟩
      have hkl : containsId (keepLast t) r.item_id = true :=
        (containsId_eq_true_iff (keepLast t) r.item_id).mpr ⟨x, hx, hxi⟩
      rw [containsId_keepLast] at hkl
      exact hc hkl

theorem keepLast_eq_self_of_nodup (l : List Row)
    (h : (l.map Row.item_id).Nodup) : keepLast l = l := by
  induction l with
  | nil => rfl
  | cons r t ih =>
    rcases List.nodup_cons.mp h with ⟨hr, ht⟩
    have hc : containsId t r.item_id = false := by
      rw [← Bool.not_eq_true]
      intro hcc
      rcases (containsId_eq_true_iff t r.item_id).mp hcc with ⟨x, hx, hxi⟩
      exact hr (List.mem_map.mpr ⟨x, hx, hxi⟩)
    rw [keepLast, hc]
    simp [ih ht]

theorem keepLast_idem (l : List Row) : keepLast (keepLast l) = keepLast l :=
  keepLast_eq_self_of_nodup _ (keepLast_ids_nodup l)

theorem filter_keepLast_filter (l : List Row) (p : Row → Bool) :
    (keepLast (l.filter p)).filter p = keepLast (l.filter p) := by
  apply List.filter_eq_self.mpr
  intro x hx
  exact List.of_mem_filter (mem_keepLast_sub hx)

theorem filter_not_contains_self (l : List Row) :
    l.filter (fun r => !containsId l r.item_id) = [] := by
  rw [List.filter_eq_nil_iff]
  intro x hx
  have : containsId l x.item_id = true :=
    (containsId_eq_true_iff l x.item_id).mpr ⟨x, hx, rfl⟩
  simp [this]

theorem filter_keepLast_not_contains (b : List Row) :
    (keepLast b).filter (fun r => !containsId b r.item_id) = [] := by
  rw [List.filter_eq_nil_iff]
  intro x hx
  have : containsId b x.item_id = true :=
    (containsId_eq_true_iff b x.item_id).mpr ⟨x, mem_keepLast_sub hx, rfl⟩
  simp [this]

theorem keepLast_self_append (l : List Row) : keepLast (l ++ l) = keepLast l := by
  rw [keepLast_append, filter_not_contains_self]
  rfl

/-- Re-upserting the same batch over the merged table changes nothing. -/
theorem keepLast_restab (t df : List Row) :
    keepLast (keepLast (t ++ df) ++ df) = keepLast (t ++ df) := by
  conv_lhs => rw [keepLast_append t df]
  rw [keepLast_append _ df, List.filter_append, filter_keepLast_filter,
    filter_keepLast_not_contains, List.append_nil, keepLast_idem,
    keepLast_append t df]

/-! ## Upsert idempotence (claim C6) -/

/-- C6: upserting the identical batch twice leaves the stored table after
the second call equal to the table after the first call — record count and
every stored field value included (this also covers the degenerate runs in
which a call raises, since the raise happens before the write). -/
theorem upsert_listings_idempotent (df t : List Row) :
    upsertTable df (upsertTable df t) = upsertTable df t := by
  by_cases hdf : df.isEmpty
  · simp [upsertTable, upsert_listings, hdf]
  · by_cases ht : t.isEmpty
    · have h1 : upsertTable df t = df := by
        simp [upsertTable, upsert_listings, hdf, ht]
      rw [h1]
      have hk : keepLast (df ++ df) = keepLast df := keepLast_self_append df
      by_cases hlt : (keepLast (df ++ df)).length < df.length
      · simp [upsertTable, upsert_listings, hdf, hlt]
      · have hlen : (keepLast df).length = df.length := by
          have h2 := keepLast_length_le df
          rw [hk] at hlt
          omega
        have heq : keepLast df = df := keepLast_eq_of_length df hlen
        simp [upsertTable, upsert_listings, hdf, hlt, hk, heq]
    · by_cases hm : (keepLast (t ++ df)).length < t.length
      · have h1 : upsertTable df t = t := by
          simp [upsertTable, upsert_listings, hdf, ht, hm]
        rw [h1]
        exact h1
      · have h1 : upsertTable df t = keepLast (t ++ df) := by
          simp [upsertTable, upsert_listings, hdf, ht, hm]
        rw [h1]
        have hne : ¬(keepLast (t ++ df)).isEmpty := by
          have h2 : 1 ≤ t.length := by
            cases t with
            | nil => simp at ht
            | cons a b => simp
          rw [List.isEmpty_iff]
          intro hnil
          rw [hnil] at hm
          simp only [List.length_nil] at hm
          omega
        have hk := keepLast_restab t df
        have hm2 : ¬(keepLast (keepLast (t ++ df) ++ df)).length <
            (keepLast (t ++ df)).length := by
          rw [hk]
          omega
        simp [upsertTable, upsert_listings, hdf, hne, hm2, hk]

/-! ## Bulk upsert never shrinks the table (claim C5)

As stated, the claim is false at one boundary input: with an *empty* batch
and a stored table whose rows repeat an `item_id`, deduplicating the union
would shrink the table, yet the call returns `0` on the early
`len(df) == 0` exit without raising.  The amended claim restricts to
non-empty batches, for which the source behaves exactly as claimed. -/

/-- C5 counterexample: empty batch over a table with two rows sharing an
`item_id` — deduplicating the union would shrink the table (`1 < 2` rows),
but the call does not raise; it returns `0`. -/
theorem upsert_empty_batch_counterexample :
    (keepLast (([⟨"x", "p1"⟩, ⟨"x", "p2"⟩] : List Row) ++ [])).length <
      ([⟨"x", "p1"⟩, ⟨"x", "p2"⟩] : List Row).length ∧
    upsert_listings [] [⟨"x", "p1"⟩, ⟨"x", "p2"⟩] =
      .written [⟨"x", "p1"⟩, ⟨"x", "p2"⟩] 0 := by
  constructor
  · decide
  · rfl

/-- C5 (amended to non-empty batches): for a non-empty batch over a
non-empty table, if deduplicating the union by `item_id` would yield fewer
rows than the table, the call raises and the stored table is unchanged
(the write never runs); any non-raising call ends with at least as many
stored rows as before. -/
theorem upsert_no_shrink (df table : List Row)
    (hdf : df ≠ []) (ht : table ≠ []) :
    ((keepLast (table ++ df)).length < table.length →
      upsert_listings df table = .raised ∧ upsertTable df table = table) ∧
    (∀ t' n, upsert_listings df table = .written t' n →
      table.length ≤ t'.length) := by
  have hdf' : df.isEmpty = false := by simp [hdf]
  have ht' : table.isEmpty = false := by simp [ht]
  constructor
  · intro hlt
    constructor
    · simp [upsert_listings, hdf', ht', hlt]
    · simp [upsertTable, upsert_listings, hdf', ht', hlt]
  · intro t' n hw
    simp only [upsert_listings, hdf', ht', Bool.false_eq_true, if_false] at hw
    by_cases hm : (keepLast (table ++ df)).length < table.length
    · rw [if_pos hm] at hw
      exact absurd hw (by simp)
    · rw [if_neg hm] at hw
      have : t' = keepLast (table ++ df) := by
        cases hw
        rfl
      rw [this]
      omega

/-- Witness for `upsert_no_shrink` at a concrete one-row batch and table. -/
theorem upsert_no_shrink_witness :
    ([⟨"a", "1"⟩] : List Row) ≠ [] ∧ ([⟨"b", "2"⟩] : List Row) ≠ [] ∧
    ([⟨"b", "2"⟩] : List Row).length ≤
      ([⟨"b", "2"⟩, ⟨"a", "1"⟩] : List Row).length :=
  ⟨by decide, by decide,
    (upsert_no_shrink [⟨"a", "1"⟩] [⟨"b", "2"⟩] (by decide) (by decide)).2
      [⟨"b", "2"⟩, ⟨"a", "1"⟩] 2 (by decide)⟩


/-! ## Brace-depth extraction round-trip (claim C4)

The scan in `extract_config` counts *every* brace character, including
braces inside JSON string literals.  A payload whose string values contain
only balanced brace characters is recovered exactly; a string value with an
unmatched brace either makes the scan close early (handing `json.loads` a
truncated, invalid prefix, upon which the function returns `None`) or
prevents it from ever reaching depth zero.  The claim as stated — for
*every* payload with braces embedded in string values — is therefore
false; the counterexample uses the payload `{"a":"}"}` (written with
escaped braces below). -/

theorem braceDelta_nil : braceDelta [] = 0 := rfl

/-- Per-character contribution to the brace depth. -/
def braceDeltaC (c : Char) : Int :=
  if c = '\x7b' then 1 else if c = '\x7d' then -1 else 0

theorem braceDelta_cons (c : Char) (l : List Char) :
    braceDelta (c :: l) = braceDeltaC c + braceDelta l := by
  by_cases h1 : c = '\x7b'
  · subst h1
    simp [braceDelta, braceDeltaC, List.count_cons]
    ring
  · by_cases h2 : c = '\x7d'
    · subst h2
      simp [braceDelta, braceDeltaC, List.count_cons]
      ring
    · have e1 : (c == '\x7b') = false := by
        simp [h1]
      have e2 : (c == '\x7d') = false := by
        simp [h2]
      simp [braceDelta, braceDeltaC, List.count_cons, h1, h2, e1, e2]

/-- A brace-free prefix is scanned through without any state change other
than the position. -/
theorem scanLoop_skip (full ws r : List Char) (i : Nat) (js : Int)
    (h1 : '\x7b' ∉ ws) (h2 : '\x7d' ∉ ws) :
    scanLoop full (ws ++ r) i 0 js = scanLoop full r (i + ws.length) 0 js := by
  induction ws generalizing i with
  | nil => simp
  | cons c t ih =>
    have hc1 : ¬(c = '\x7b') := fun h => h1 (h ▸ List.mem_cons_self c t)
    have hc2 : ¬(c = '\x7d') := fun h => h2 (h ▸ List.mem_cons_self c t)
    rw [List.cons_append, scanLoop, if_neg hc1, if_neg hc2,
      ih (i + 1) (fun h => h1 (List.mem_cons_of_mem c h))
        (fun h => h2 (List.mem_cons_of_mem c h))]
    have harg : i + 1 + t.length = i + (c :: t).length := by
      simp [List.length_cons]
      omega
    rw [harg]

/-- Once inside the object (depth `d ≥ 1`), if the running depth stays
positive on every proper prefix of `q` and reaches zero exactly at its
end, the scan attempts `json.loads` on the slice ending with `q`'s last
character and returns its result (`None` on a parse failure). -/
theorem scanLoop_closes (full : List Char) (q : List Char) :
    ∀ (suffix : List Char) (i : Nat) (d js : Int), 1 ≤ d →
    (∀ k, k < q.length → 1 ≤ d + braceDelta (q.take k)) →
    d + braceDelta q = 0 →
    scanLoop full (q ++ suffix) i d js =
      match jsonParse (pySliceFrom full js (i + q.length)) with
      | some v => some v
      | none => none := by
  induction q with
  | nil =>
    intro suffix i d js hd hpre hend
    rw [braceDelta_nil] at hend
    omega
  | cons c t ih =>
    intro suffix i d js hd hpre hend
    rw [List.cons_append, scanLoop]
    by_cases hb : c = '\x7b'
    · rw [if_pos hb]
      have hd0 : ¬(d = 0) := by omega
      rw [if_neg hd0]
      have hcΔ : braceDeltaC c = 1 := by
        rw [braceDeltaC, if_pos hb]
      have h2 : ∀ k, k < t.length → 1 ≤ (d + 1) + braceDelta (t.take k) := by
        intro k hk
        have hk1 : k + 1 < (c :: t).length := by
          simp [List.length_cons]
          omega
        have := hpre (k + 1) hk1
        rw [List.take_succ_cons, braceDelta_cons, hcΔ] at this
        omega
      have h3 : (d + 1) + braceDelta t = 0 := by
        rw [braceDelta_cons, hcΔ] at hend
        omega
      rw [ih suffix (i + 1) (d + 1) js (by omega) h2 h3]
      have harg : i + 1 + t.length = i + (c :: t).length := by
        simp [List.length_cons]
        omega
      rw [harg]
    · by_cases hc : c = '\x7d'
      · rw [if_neg hb, if_pos hc]
        have hcΔ : braceDeltaC c = -1 := by
          rw [braceDeltaC, if_neg hb, if_pos hc]
        by_cases hd1 : d - 1 = 0
        · rw [if_pos hd1]
          have ht : t = [] := by
            by_contra hne
            have hlen : 1 < (c :: t).length := by
              cases t with
              | nil => exact absurd rfl hne
              | cons a b => simp [List.length_cons]
            have := hpre 1 hlen
            rw [List.take_succ_cons, List.take_zero, braceDelta_cons, hcΔ,
              braceDelta_nil] at this
            omega
          subst ht
          have harg : i + ([c] : List Char).length = i + 1 := by
            simp
          rw [harg]
        · rw [if_neg hd1]
          have h2 : ∀ k, k < t.length → 1 ≤ (d - 1) + braceDelta (t.take k) := by
            intro k hk
            have hk1 : k + 1 < (c :: t).length := by
              simp [List.length_cons]
              omega
            have := hpre (k + 1) hk1
            rw [List.take_succ_cons, braceDelta_cons, hcΔ] at this
            omega
          have h3 : (d - 1) + braceDelta t = 0 := by
            rw [braceDelta_cons, hcΔ] at hend
            omega
          rw [ih suffix (i + 1) (d - 1) js (by omega) h2 h3]
          have harg : i + 1 + t.length = i + (c :: t).length := by
            simp [List.length_cons]
            omega
          rw [harg]
      · rw [if_neg hb, if_neg hc]
        have hcΔ : braceDeltaC c = 0 := by
          rw [braceDeltaC, if_neg hb, if_neg hc]
        have h2 : ∀ k, k < t.length → 1 ≤ d + braceDelta (t.take k) := by
          intro k hk
          have hk1 : k + 1 < (c :: t).length := by
            simp [List.length_cons]
            omega
          have := hpre (k + 1) hk1
          rw [List.take_succ_cons, braceDelta_cons, hcΔ] at this
          omega
        have h3 : d + braceDelta t = 0 := by
          rw [braceDelta_cons, hcΔ] at hend
          omega
        rw [ih suffix (i + 1) d js hd h2 h3]
        have harg : i + 1 + t.length = i + (c :: t).length := by
          simp [List.length_cons]
          omega
        rw [harg]

/-- First hit of `findIdx?` just past a prefix free of matches. -/
theorem findIdx_past_clean (A B : List Char) (c : Char) (hA : c ∉ A) :
    ∀ i, (A ++ c :: B).findIdx? (fun x => x = c) i = some (i + A.length) := by
  induction A with
  | nil =>
    intro i
    simp [List.findIdx?_cons]
  | cons a t ih =>
    intro i
    have ha : ¬(a = c) := fun h => hA (h ▸ List.mem_cons_self a t)
    have hac : (decide (a = c)) = false := by
      simp [ha]
    rw [List.cons_append, List.findIdx?_cons]
    simp only [hac, Bool.false_eq_true, if_false]
    rw [ih (fun h => hA (List.mem_cons_of_mem a h)) (i + 1)]
    have : i + 1 + t.length = i + (a :: t).length := by
      simp [List.length_cons]
      omega
    rw [this]


/-- Opening step of the scan at depth `0`. -/
theorem scanLoop_open (full rest : List Char) (i : Nat) (js : Int) :
    scanLoop full ('\x7b' :: rest) i 0 js =
      scanLoop full rest (i + 1) (0 + 1) (i : Int) := by
  simp [scanLoop]

/-- C4 (amended): the round-trip holds for every embedded assignment whose
payload's raw brace depth — counting braces inside string values too —
stays positive strictly inside the payload and first returns to zero at its
final character (in particular: nested objects, and string values whose
embedded braces are balanced).  `extract_config` then hands `json.loads`
exactly the payload text, so it returns exactly what direct parsing of the
reference payload returns. -/
theorem extract_config_roundtrip (pre gap ws p suffix : List Char)
    (h1 : findSub (pre ++ (CONFIG_MARKER ++ (gap ++ (('=' :: ws) ++ (p ++ suffix)))))
        CONFIG_MARKER = some pre.length)
    (h2 : '=' ∉ gap)
    (h3 : '\x7b' ∉ ws) (h4 : '\x7d' ∉ ws)
    (h5 : p.head? = some '\x7b')
    (h6 : ∀ k, k < p.length → 0 < k → 1 ≤ braceDelta (p.take k))
    (h7 : braceDelta p = 0) :
    extract_config (pre ++ (CONFIG_MARKER ++ (gap ++ (('=' :: ws) ++ (p ++ suffix)))))
      = jsonParse p := by
  obtain ⟨t, rfl⟩ : ∃ t, p = '\x7b' :: t := by
    cases p with
    | nil => simp at h5
    | cons c t =>
      simp only [List.head?_cons, Option.some_inj] at h5
      exact ⟨t, by rw [h5]⟩
  have hmar : '=' ∉ CONFIG_MARKER := by decide
  have hdrop : (pre ++ (CONFIG_MARKER ++ (gap ++ (('=' :: ws) ++
      (('\x7b' :: t) ++ suffix))))).drop pre.length =
      (CONFIG_MARKER ++ gap) ++ '=' :: (ws ++ (('\x7b' :: t) ++ suffix)) := by
    rw [List.drop_left]
    simp [List.append_assoc, List.cons_append]
  have hnotin : '=' ∉ CONFIG_MARKER ++ gap := by
    intro h
    rcases List.mem_append.mp h with h | h
    · exact hmar h
    · exact h2 h
  have hfe : findCharFrom (pre ++ (CONFIG_MARKER ++ (gap ++ (('=' :: ws) ++
      (('\x7b' :: t) ++ suffix))))) '=' pre.length =
      some ((CONFIG_MARKER ++ gap).length + pre.length) := by
    rw [findCharFrom, hdrop, findIdx_past_clean _ _ _ hnotin 0]
    simp
  have hlen : (pre ++ (CONFIG_MARKER ++ (gap ++ [('=' : Char)]))).length =
      (CONFIG_MARKER ++ gap).length + pre.length + 1 := by
    simp [List.length_append]
    omega
  have hdrop2 : (pre ++ (CONFIG_MARKER ++ (gap ++ (('=' :: ws) ++
      (('\x7b' :: t) ++ suffix))))).drop
        ((CONFIG_MARKER ++ gap).length + pre.length + 1) =
      ws ++ (('\x7b' :: t) ++ suffix) := by
    have hassoc : pre ++ (CONFIG_MARKER ++ (gap ++ (('=' :: ws) ++
        (('\x7b' :: t) ++ suffix)))) =
        (pre ++ (CONFIG_MARKER ++ (gap ++ ['=']))) ++
          (ws ++ (('\x7b' :: t) ++ suffix)) := by
      simp [List.append_assoc, List.cons_append]
    rw [hassoc, List.drop_left' hlen]
  simp only [extract_config, h1, hfe, hdrop2]
  rw [scanLoop_skip _ ws (('\x7b' :: t) ++ suffix) _ _ h3 h4]
  rw [show (('\x7b' :: t) ++ suffix : List Char) = '\x7b' :: (t ++ suffix) from rfl,
    scanLoop_open]
  have hΔ : braceDeltaC '\x7b' = 1 := by decide
  have h2' : ∀ k, k < t.length → 1 ≤ (0 + 1 : Int) + braceDelta (t.take k) := by
    intro k hk
    have hk1 : k + 1 < ('\x7b' :: t).length := by
      simp only [List.length_cons]
      omega
    have := h6 (k + 1) hk1 (by omega)
    rw [List.take_succ_cons, braceDelta_cons, hΔ] at this
    omega
  have h3' : (0 + 1 : Int) + braceDelta t = 0 := by
    rw [braceDelta_cons, hΔ] at h7
    omega
  rw [scanLoop_closes _ t suffix _ (0 + 1) _ (by omega) h2' h3']
  have hB : (pre ++ (CONFIG_MARKER ++ (gap ++ ['='])) ++ ws).length =
      (CONFIG_MARKER ++ gap).length + pre.length + 1 + ws.length := by
    simp [List.length_append]
    omega
  have hassoc2 : pre ++ (CONFIG_MARKER ++ (gap ++ (('=' :: ws) ++
      ('\x7b' :: (t ++ suffix))))) =
      (pre ++ (CONFIG_MARKER ++ (gap ++ ['='])) ++ ws) ++
        (('\x7b' :: t) ++ suffix) := by
    simp [List.append_assoc, List.cons_append]
  have hslice : pySliceFrom (pre ++ (CONFIG_MARKER ++ (gap ++ (('=' :: ws) ++
      ('\x7b' :: (t ++ suffix))))))
      (((CONFIG_MARKER ++ gap).length + pre.length + 1 + ws.length : Nat) : Int)
      ((CONFIG_MARKER ++ gap).length + pre.length + 1 + ws.length + 1 + t.length) =
      '\x7b' :: t := by
    rw [pySliceFrom]
    have hnn : ¬((((CONFIG_MARKER ++ gap).length + pre.length + 1 + ws.length : Nat) :
        Int) < 0) :=
      not_lt.mpr (Int.ofNat_nonneg _)
    rw [if_neg hnn, Int.toNat_natCast, hassoc2, List.take_append_eq_append_take,
      List.take_of_length_le (by rw [hB]; omega), hB]
    have hsub : (CONFIG_MARKER ++ gap).length + pre.length + 1 + ws.length + 1 +
        t.length - ((CONFIG_MARKER ++ gap).length + pre.length + 1 + ws.length) =
        t.length + 1 := by
      omega
    rw [hsub, List.take_left' (by simp [List.length_cons])]
    exact List.drop_left' hB
  rw [hslice]
  cases jsonParse ('\x7b' :: t) with
  | none => rfl
  | some v => rfl


/-- C4 counterexample: for the embedded assignment
`window.__CONFIG__={"a":"}"}` — a payload whose string value contains an
embedded closing brace — direct parsing of the reference payload succeeds,
but `extract_config` returns `None`: the scan counts the brace inside the
string, closes the object early and hands `json.loads` the invalid prefix. -/
theorem extract_config_unbalanced_brace_counterexample :
    extract_config ("window.__CONFIG__=\x7b\"a\":\"\x7d\"\x7d").toList = none ∧
    jsonParse ("\x7b\"a\":\"\x7d\"\x7d").toList =
      some (.obj [(['a'], .str ['\x7d'])]) := by
  exact ⟨rfl, rfl⟩

/-- Payload for the round-trip witness: a nested object whose inner string
value contains balanced embedded braces. -/
def roundtripPayload : List Char := "\x7b\"a\":\x7b\"b\":\"\x7b\x7d\"\x7d\x7d".toList

/-- Witness for `extract_config_roundtrip` at a concrete document. -/
theorem extract_config_roundtrip_witness :
    ('=' ∉ "".toList) ∧ ('\x7b' ∉ " ".toList) ∧ ('\x7d' ∉ " ".toList) ∧
    roundtripPayload.head? = some '\x7b' ∧
    braceDelta roundtripPayload = 0 ∧
    extract_config ("x ".toList ++ (CONFIG_MARKER ++ ("".toList ++
        (('=' :: " ".toList) ++ (roundtripPayload ++ ";".toList)))))
      = jsonParse roundtripPayload :=
  ⟨by decide, by decide, by decide, by decide, by decide,
    extract_config_roundtrip "x ".toList "".toList " ".toList roundtripPayload
      ";".toList (by decide) (by decide) (by decide) (by decide) (by decide)
      (by decide) (by decide)⟩


/-! ## Unparsable listing age is treated as fresh (claim C10) -/

/-- C10: when a listing's `listed_timestamp` is missing, empty, or fails
ISO-8601 parsing, `age_hours` yields `None` (the exception is swallowed);
in `get_listings` the freshness check neither raises `CategoryStale` nor
skips the listing — it is emitted exactly as a fresh one; and in
`_worker_category` the item is saved rather than marking the category
stale. -/
theorem unparsable_age_treated_as_fresh
    (fi : String → Option Int) (now : Int) (s : String)
    (env : ScrapeEnv) (catCount : Nat) (pcid cid limit lcount : Int) (m : ℚ)
    (st : CrawlState) (r : ResListing) (d : ListingDetails) (hc : Char)
    (wenv : WorkerEnv) (wst : WorkerSt) (it : WItem) (ts : List WItem)
    (wd : WDetails) (wmax : ℚ)
    (hs : s ≠ "") (hparse : fi (replaceZ s) = none)
    (hlim : (st.listings.length : Int) ≠ limit)
    (hhead : r.itemId.toList.head? = some hc) (hnotad : ¬(hc = 'a'))
    (hseen : r.itemId ∉ st.item_ids)
    (hcat : ¬(catCount > 1 ∧ r.categoryId ≠ cid))
    (hdet : env.getDetails (MARTKPLAATS_BASE_URL ++ r.vipUrl) = some d)
    (hts : env.fromiso (replaceZ d.listed_timestamp) = none)
    (hrem : wst.remaining = none ∨ ∃ r0, wst.remaining = some r0 ∧ 0 < r0)
    (hvip : ¬(it.vipUrl = ""))
    (hfd : wenv.fetchDetail (MARTKPLAATS_BASE_URL ++ it.vipUrl) = some wd)
    (hage : age_hours wenv.fromiso wenv.now wd.listed_timestamp = none) :
    age_hours fi now none = none ∧
    age_hours fi now (some "") = none ∧
    age_hours fi now (some s) = none ∧
    processItem env false catCount pcid cid limit lcount (some m) st r =
      .cont (emitListing
        { st with fetched := st.fetched ++ [MARTKPLAATS_BASE_URL ++ r.vipUrl] }
        (mkListingSlow env r pcid (MARTKPLAATS_BASE_URL ++ r.vipUrl) d)) ∧
    workerFetchLoop wenv wmax wst (it :: ts) =
      workerFetchLoop wenv wmax
        { existing := wst.existing ++ [wd.item_id],
          saved := wst.saved ++ [wd],
          remaining := (match wst.remaining with
                        | some r0 => if r0 > 0 then some (r0 - 1) else some r0
                        | none => none),
          fetched := wst.fetched ++ [MARTKPLAATS_BASE_URL ++ it.vipUrl] } ts := by
  refine ⟨rfl, rfl, ?_, ?_, ?_⟩
  · rw [age_hours]
    rw [if_neg hs, hparse]
  · obtain ⟨c0, cs, hl⟩ : ∃ c0 cs, r.itemId.toList = c0 :: cs := by
      cases hl : r.itemId.toList with
      | nil => rw [hl] at hhead; simp at hhead
      | cons c0 cs => exact ⟨c0, cs, rfl⟩
    have hc0 : c0 = hc := by
      rw [hl] at hhead
      simpa using hhead
    subst hc0
    rw [processItem, if_neg hlim, hl]
    simp only []
    rw [if_neg hnotad, if_neg hseen, if_neg hcat]
    simp only [Bool.false_eq_true, if_false]
    rw [hdet]
    simp only []
    rw [hts]
  · cases hrem with
    | inl h0 =>
      rw [workerFetchLoop, h0]
      simp only [Bool.false_eq_true, if_false]
      rw [if_neg hvip, if_neg hvip, hfd]
      simp only []
      rw [hage]
    | inr h0 =>
      obtain ⟨r0, hr0, hpos⟩ := h0
      rw [workerFetchLoop, hr0]
      have hdec : (decide (r0 ≤ 0)) = false :=
        decide_eq_false_iff_not.mpr (not_le.mpr hpos)
      simp only [hdec, Bool.false_eq_true, if_false]
      rw [if_neg hvip, if_neg hvip, hfd]
      simp only []
      rw [hage]


/-- Concrete environment for the C10 witness: one known detail page whose
`listed_timestamp` never parses. -/
def c10Details : ListingDetails :=
  { description := "d", ad_type := "ad", types := [], services := [],
    price_type := "pt", price_cents := 100, view_count := 1,
    favorited_count := 2, listed_timestamp := "bad-ts" }

def c10Env : ScrapeEnv :=
  { getDetails := fun u =>
      if u = "https://marktplaats.nl/vX" then some c10Details else none
    fromiso := fun t => if t = "good" then some 0 else none
    now := 0
    nowIso := "2024" }

def c10Res : ResListing :=
  { itemId := "b1", categoryId := 5, title := "T", vipUrl := "/vX",
    pictures := [], location := none, verticals := [], sellerId := none,
    description := "", priceType := "", priceCents := 0, date := "" }

def c10WDetails : WDetails :=
  { item_id := "w1", title := "t", listed_timestamp := some "bad-ts" }

def c10WEnv : WorkerEnv :=
  { fetchDetail := fun u =>
      if u = "https://marktplaats.nl/wY" then some c10WDetails else none
    fromiso := fun _ => none
    now := 0 }

/-- Witness for `unparsable_age_treated_as_fresh` at a concrete run. -/
theorem unparsable_age_treated_as_fresh_witness :
    ("bad-ts" : String) ≠ "" ∧
    age_hours (fun t => if t = "good" then some (0 : Int) else none) 0
      (some "bad-ts") = none :=
  ⟨by decide,
    (unparsable_age_treated_as_fresh
      (fun t => if t = "good" then some (0 : Int) else none) 0 "bad-ts"
      c10Env 1 91 5 30 30 3 ⟨[], [], 30, []⟩ c10Res c10Details 'b'
      c10WEnv ⟨[], [], some 5, []⟩ ⟨"w1", "t", "/wY"⟩ [] c10WDetails 3
      (by decide) (by decide) (by decide) (by decide) (by decide) (by decide)
      (by decide) (by decide) (by decide)
      (Or.inr ⟨5, rfl, by decide⟩) (by decide) (by decide)
      (by decide)).2.2.1⟩


/-! ## Crawl invariant: at-most-once emission and ad filtering
(claims C2 and C7) -/

/-- The traversal state carried by any step outcome. -/
def ItemStep.state : ItemStep → CrawlState
  | .cont st => st
  | .pageBreak st => st
  | .staleStop st => st
  | .failStop st => st
  | .catStop st => st

def PageResult.state : PageResult → CrawlState
  | .done st => st
  | .staleStop st => st
  | .failStop st => st
  | .catStop st => st

def CatResult.state : CatResult → CrawlState
  | .done st => st
  | .staleStop st => st
  | .failStop st => st

def GetListingsOutcome.state : GetListingsOutcome → CrawlState
  | .ok st => st
  | .stale st => st
  | .failed st => st

/-- Invariant of the traversal: every emitted listing is registered in the
round-local seen set, no two emitted listings share an item ID, the seen
set still covers the initial `existing_item_ids`, no emitted listing was
initially seen, and no emitted listing is ad-prefixed. -/
def CrawlInv (existing : List String) (st : CrawlState) : Prop :=
  (∀ l ∈ st.listings, l.item_id ∈ st.item_ids) ∧
  st.listings.Pairwise (fun a b => a.item_id ≠ b.item_id) ∧
  (∀ x ∈ existing, x ∈ st.item_ids) ∧
  (∀ l ∈ st.listings, l.item_id ∉ existing) ∧
  (∀ l ∈ st.listings, l.item_id.toList.head? ≠ some 'a')

theorem crawlInv_emit (ex : List String) (st : CrawlState) (l : Listing)
    (hinv : CrawlInv ex st) (hid : l.item_id ∉ st.item_ids)
    (hhead : l.item_id.toList.head? ≠ some 'a') :
    CrawlInv ex (emitListing st l) := by
  obtain ⟨h1, h2, h3, h4, h5⟩ := hinv
  refine ⟨?_, ?_, ?_, ?_, ?_⟩
  · intro x hx
    rcases List.mem_append.mp hx with hx | hx
    · exact List.mem_append_left _ (h1 x hx)
    · simp only [List.mem_singleton] at hx
      subst hx
      exact List.mem_append_right _ (by simp)
  · show List.Pairwise (fun a b => a.item_id ≠ b.item_id) (st.listings ++ [l])
    rw [List.pairwise_append]
    refine ⟨h2, List.pairwise_singleton _ _, ?_⟩
    intro a ha b hb
    simp only [List.mem_singleton] at hb
    subst hb
    intro heq
    exact hid (heq ▸ h1 a ha)
  · intro x hx
    exact List.mem_append_left _ (h3 x hx)
  · intro x hx
    rcases List.mem_append.mp hx with hx | hx
    · exact h4 x hx
    · simp only [List.mem_singleton] at hx
      subst hx
      intro hmem
      exact hid (h3 _ hmem)
  · intro x hx
    rcases List.mem_append.mp hx with hx | hx
    · exact h5 x hx
    · simp only [List.mem_singleton] at hx
      subst hx
      exact hhead

theorem processItem_state_inv (env : ScrapeEnv) (fast : Bool) (catCount : Nat)
    (pcid cid limit lcount : Int) (maxAge : Option ℚ) (st : CrawlState)
    (r : ResListing) (ex : List String) (hinv : CrawlInv ex st) :
    CrawlInv ex
      (processItem env fast catCount pcid cid limit lcount maxAge st r).state := by
  have hfet : ∀ u : List String, CrawlInv ex { st with fetched := u } := by
    intro u
    exact hinv
  have hmod : ∀ (u : List String) (m : Int),
      CrawlInv ex { st with fetched := u, maxListings := m } := by
    intro u m
    exact hinv
  dsimp only [processItem]
  split
  · exact hinv
  · split
    · exact hinv
    · next c cs heq =>
      split
      · exact hinv
      · next hca =>
        split
        · exact hinv
        · next hseen =>
          split
          · exact hinv
          · next hcat =>
            have hhead : r.itemId.toList.head? ≠ some 'a' := by
              rw [heq]
              simp [hca]
            split
            · exact crawlInv_emit ex st _ hinv hseen hhead
            · split
              · exact hmod _ _
              · next d hdet =>
                split
                · exact crawlInv_emit ex _ _ (hfet _) hseen hhead
                · next m =>
                  split
                  · exact crawlInv_emit ex _ _ (hfet _) hseen hhead
                  · next dt hts =>
                    split
                    · exact hfet _
                    · exact crawlInv_emit ex _ _ (hfet _) hseen hhead

theorem processPage_state_inv (env : ScrapeEnv) (fast : Bool) (catCount : Nat)
    (pcid cid limit lcount : Int) (maxAge : Option ℚ) (rs : List ResListing)
    (ex : List String) :
    ∀ st : CrawlState, CrawlInv ex st →
      CrawlInv ex
        (processPage env fast catCount pcid cid limit lcount maxAge st rs).state := by
  induction rs with
  | nil =>
    intro st hinv
    exact hinv
  | cons r rs ih =>
    intro st hinv
    rw [processPage]
    have hstep := processItem_state_inv env fast catCount pcid cid limit lcount
      maxAge st r ex hinv
    cases hpi : processItem env fast catCount pcid cid limit lcount maxAge st r with
    | cont st' =>
      rw [hpi] at hstep
      exact ih st' hstep
    | pageBreak st' =>
      rw [hpi] at hstep
      exact hstep
    | staleStop st' =>
      rw [hpi] at hstep
      exact hstep
    | failStop st' =>
      rw [hpi] at hstep
      exact hstep
    | catStop st' =>
      rw [hpi] at hstep
      exact hstep

theorem processCategory_state_inv (env : ScrapeEnv) (fast : Bool) (catCount : Nat)
    (pcid cid limit lcount : Int) (maxAge : Option ℚ)
    (pages : List (List ResListing)) (ex : List String) :
    ∀ st : CrawlState, CrawlInv ex st →
      CrawlInv ex
        (processCategory env fast catCount pcid cid limit lcount maxAge st
          pages).state := by
  induction pages with
  | nil =>
    intro st hinv
    exact hinv
  | cons pg rest ih =>
    intro st hinv
    rw [processCategory]
    by_cases hw : (st.listings.length : Int) < st.maxListings
    · rw [if_pos hw]
      by_cases hpg : pg.isEmpty
      · rw [if_pos hpg]
        exact hinv
      · rw [if_neg hpg]
        have hstep := processPage_state_inv env fast catCount pcid cid limit
          lcount maxAge pg ex st hinv
        cases hpp : processPage env fast catCount pcid cid limit lcount maxAge
            st pg with
        | done st' =>
          rw [hpp] at hstep
          exact ih st' hstep
        | staleStop st' =>
          rw [hpp] at hstep
          exact hstep
        | failStop st' =>
          rw [hpp] at hstep
          exact hstep
        | catStop st' =>
          rw [hpp] at hstep
          exact hstep
    · rw [if_neg hw]
      exact hinv

theorem processCategories_state_inv (env : ScrapeEnv) (fast : Bool)
    (catCount : Nat) (pcid limit lcount : Int) (maxAge : Option ℚ)
    (cats : List (Int × List (List ResListing))) (ex : List String) :
    ∀ st : CrawlState, CrawlInv ex st →
      CrawlInv ex
        (processCategories env fast catCount pcid limit lcount maxAge st
          cats).state := by
  induction cats with
  | nil =>
    intro st hinv
    exact hinv
  | cons c rest ih =>
    intro st hinv
    obtain ⟨cid, pages⟩ := c
    rw [processCategories]
    have hstep := processCategory_state_inv env fast catCount pcid cid limit
      lcount maxAge pages ex st hinv
    cases hpc : processCategory env fast catCount pcid cid limit lcount maxAge
        st pages with
    | done st' =>
      rw [hpc] at hstep
      exact ih st' hstep
    | staleStop st' =>
      rw [hpc] at hstep
      exact hstep
    | failStop st' =>
      rw [hpc] at hstep
      exact hstep

theorem get_listings_inv (env : ScrapeEnv) (fast : Bool) (pcid : Int)
    (cats : List (Int × List (List ResListing))) (limit0 lcount : Int)
    (existing : List String) (maxAge : Option ℚ) :
    CrawlInv existing
      (get_listings env fast pcid cats limit0 lcount existing maxAge).state := by
  rw [get_listings]
  apply processCategories_state_inv
  refine ⟨?_, ?_, ?_, ?_, ?_⟩
  · intro l hl
    simp at hl
  · simp
  · intro x hx
    exact hx
  · intro l hl
    simp at hl
  · intro l hl
    simp at hl


/-- The listings of an outcome are the listings of its carried state. -/
theorem GetListingsOutcome.listings_eq_state (o : GetListingsOutcome) :
    o.listings = o.state.listings := by
  cases o <;> rfl

/-- C2: within one `get_listings` call — across all its subcategories and
pages, whatever the outcome — the collected listings contain no two entries
with the same item ID and no entry whose item ID was in
`existing_item_ids` at the start of the call. -/
theorem get_listings_at_most_once (env : ScrapeEnv) (fast : Bool) (pcid : Int)
    (cats : List (Int × List (List ResListing))) (limit0 lcount : Int)
    (existing : List String) (maxAge : Option ℚ) :
    ((get_listings env fast pcid cats limit0 lcount existing
        maxAge).listings).Pairwise (fun a b => a.item_id ≠ b.item_id) ∧
    ∀ l ∈ (get_listings env fast pcid cats limit0 lcount existing
        maxAge).listings, l.item_id ∉ existing := by
  have h := get_listings_inv env fast pcid cats limit0 lcount existing maxAge
  rw [GetListingsOutcome.listings_eq_state]
  exact ⟨h.2.1, h.2.2.2.1⟩

/-! ## Ad-prefix filter (claim C7)

`get_listings` skips items whose ID starts with the sponsored prefix
`"a"` before any counter is touched; `_worker_category`, however, has no
ad-prefix check at all — its `to_fetch` filter (lines 549-558) only tests
the seen-set and `vipUrl` — so an ad-prefixed item is fetched, emitted and
charged against the budget there.  The claim is amended to
`MpScraper.get_listings` only, and the counterexample exhibits
`_worker_category` saving an ad-prefixed item and decrementing the
budget for it. -/

/-- C7 counterexample: `_worker_category` on an index page where an
ad-prefixed item (`"a111"`) precedes a normal one emits the ad item and
spends budget on it (remaining drops from 5 to 3 for the two items). -/
theorem worker_category_emits_ad_item :
    (worker_category
      { fetchDetail := fun u =>
          if u = "https://marktplaats.nl/ad" then
            some { item_id := "a111", title := "ad listing", listed_timestamp := none }
          else if u = "https://marktplaats.nl/n" then
            some { item_id := "n222", title := "normal", listed_timestamp := none }
          else none
        fromiso := fun _ => none
        now := 0 }
      3 [⟨"a111", "ad", "/ad"⟩, ⟨"n222", "norm", "/n"⟩] (some 5) []).1.saved =
      [{ item_id := "a111", title := "ad listing", listed_timestamp := none },
       { item_id := "n222", title := "normal", listed_timestamp := none }] ∧
    (worker_category
      { fetchDetail := fun u =>
          if u = "https://marktplaats.nl/ad" then
            some { item_id := "a111", title := "ad listing", listed_timestamp := none }
          else if u = "https://marktplaats.nl/n" then
            some { item_id := "n222", title := "normal", listed_timestamp := none }
          else none
        fromiso := fun _ => none
        now := 0 }
      3 [⟨"a111", "ad", "/ad"⟩, ⟨"n222", "norm", "/n"⟩] (some 5) []).1.remaining =
      some 3 :=
  ⟨rfl, rfl⟩

/-- C7 (amended to `get_listings` only): in `MpScraper.get_listings` an
ad-prefixed item is skipped with the state — listings, seen set, and the
`max_listings` budget — completely unchanged, and no listing with an
ad-prefixed item ID ever appears in the output of any call. -/
theorem ad_prefix_filter_get_listings (env : ScrapeEnv) (fast : Bool)
    (pcid : Int) (cats : List (Int × List (List ResListing)))
    (limit0 lcount : Int) (existing : List String) (maxAge : Option ℚ) :
    (∀ (env2 : ScrapeEnv) (fast2 : Bool) (catCount2 : Nat)
        (pcid2 cid2 limit2 lcount2 : Int) (maxAge2 : Option ℚ)
        (st2 : CrawlState) (r2 : ResListing),
        r2.itemId.toList.head? = some 'a' →
        (st2.listings.length : Int) ≠ limit2 →
        processItem env2 fast2 catCount2 pcid2 cid2 limit2 lcount2 maxAge2
          st2 r2 = .cont st2) ∧
    (∀ l ∈ (get_listings env fast pcid cats limit0 lcount existing
        maxAge).listings, ¬(l.item_id.toList.head? = some 'a')) := by
  constructor
  · intro env2 fast2 catCount2 pcid2 cid2 limit2 lcount2 maxAge2 st2 r2 hhead hlim
    obtain ⟨cs, hl⟩ : ∃ cs, r2.itemId.toList = 'a' :: cs := by
      cases hl : r2.itemId.toList with
      | nil => rw [hl] at hhead; simp at hhead
      | cons c cs =>
        rw [hl] at hhead
        simp only [List.head?_cons, Option.some_inj] at hhead
        exact ⟨cs, by rw [hhead]⟩
    rw [processItem, if_neg hlim, hl]
    rfl
  · have h := get_listings_inv env fast pcid cats limit0 lcount existing maxAge
    rw [GetListingsOutcome.listings_eq_state]
    exact h.2.2.2.2

/-- Witness for `ad_prefix_filter_get_listings` at a concrete ad item. -/
theorem ad_prefix_filter_witness :
    ("a9" : String).toList.head? = some 'a' ∧
    ((⟨[], [], 30, []⟩ : CrawlState).listings.length : Int) ≠ 30 ∧
    processItem c10Env false 1 91 5 30 30 (some 3) ⟨[], [], 30, []⟩
      ⟨"a9", 5, "T", "/ad", [], none, [], none, "", "", 0, ""⟩ =
      .cont ⟨[], [], 30, []⟩ :=
  ⟨by decide, by decide,
    (ad_prefix_filter_get_listings c10Env false 91 [] 30 30 [] (some 3)).1
      c10Env false 1 91 5 30 30 (some 3) ⟨[], [], 30, []⟩
      ⟨"a9", 5, "T", "/ad", [], none, [], none, "", "", 0, ""⟩
      (by decide) (by decide)⟩


/-! ## Freshness cutoff scenario (claim C1) -/

/-- `diff_hours` is exactly the difference in hours: the `days`/`seconds`
decomposition of the timedelta cancels. -/
theorem diff_hours_eq (first last : Int) :
    diff_hours first last = ((last - first : Int) : ℚ) / 3600 := by
  rw [diff_hours]
  have hcast : ((last - first - Int.fdiv (last - first) 86400 * 86400 : Int) : ℚ) =
      ((last - first : Int) : ℚ) - ((Int.fdiv (last - first) 86400 : Int) : ℚ) * 86400 := by
    push_cast
    ring
  rw [hcast]
  field_simp
  ring

/-- The synthetic category index of claim C1: five items, ages
1 h, 2 h, 2.9 h, 4 h, 0.5 h (the clock stands at second 1000000 and the
timestamps `T1`…`T5` parse to 3600, 7200, 10440, 14400 and 1800 seconds
before it). -/
def c1Fromiso : String → Option Int := fun t =>
  if t = "T1" then some 996400
  else if t = "T2" then some 992800
  else if t = "T3" then some 989560
  else if t = "T4" then some 985600
  else if t = "T5" then some 998200
  else none

def c1D1 : ListingDetails :=
  ⟨"d1", "ad", [], [], "pt", 100, 0, 0, "T1"⟩
def c1D2 : ListingDetails :=
  ⟨"d2", "ad", [], [], "pt", 100, 0, 0, "T2"⟩
def c1D3 : ListingDetails :=
  ⟨"d3", "ad", [], [], "pt", 100, 0, 0, "T3"⟩
def c1D4 : ListingDetails :=
  ⟨"d4", "ad", [], [], "pt", 100, 0, 0, "T4"⟩
def c1D5 : ListingDetails :=
  ⟨"d5", "ad", [], [], "pt", 100, 0, 0, "T5"⟩

def c1GetDetails : String → Option ListingDetails := fun u =>
  if u = "https://marktplaats.nl/v1" then some c1D1
  else if u = "https://marktplaats.nl/v2" then some c1D2
  else if u = "https://marktplaats.nl/v3" then some c1D3
  else if u = "https://marktplaats.nl/v4" then some c1D4
  else if u = "https://marktplaats.nl/v5" then some c1D5
  else none

def c1Env : ScrapeEnv :=
  { getDetails := c1GetDetails, fromiso := c1Fromiso,
    now := 1000000, nowIso := "NOW" }

def c1R1 : ResListing := ⟨"i1", 7, "t1", "/v1", [], none, [], none, "", "", 0, ""⟩
def c1R2 : ResListing := ⟨"i2", 7, "t2", "/v2", [], none, [], none, "", "", 0, ""⟩
def c1R3 : ResListing := ⟨"i3", 7, "t3", "/v3", [], none, [], none, "", "", 0, ""⟩
def c1R4 : ResListing := ⟨"i4", 7, "t4", "/v4", [], none, [], none, "", "", 0, ""⟩
def c1R5 : ResListing := ⟨"i5", 7, "t5", "/v5", [], none, [], none, "", "", 0, ""⟩

def c1Cats : List (Int × List (List ResListing)) :=
  [(7, [[c1R1, c1R2, c1R3, c1R4, c1R5]])]

def c1WEnv : WorkerEnv :=
  { fetchDetail := fun u =>
      if u = "https://marktplaats.nl/v1" then some ⟨"i1", "t1", some "T1"⟩
      else if u = "https://marktplaats.nl/v2" then some ⟨"i2", "t2", some "T2"⟩
      else if u = "https://marktplaats.nl/v3" then some ⟨"i3", "t3", some "T3"⟩
      else if u = "https://marktplaats.nl/v4" then some ⟨"i4", "t4", some "T4"⟩
      else if u = "https://marktplaats.nl/v5" then some ⟨"i5", "t5", some "T5"⟩
      else none
    fromiso := c1Fromiso
    now := 1000000 }

def c1WItems : List WItem :=
  [⟨"i1", "t1", "/v1"⟩, ⟨"i2", "t2", "/v2"⟩, ⟨"i3", "t3", "/v3"⟩,
   ⟨"i4", "t4", "/v4"⟩, ⟨"i5", "t5", "/v5"⟩]

/-- C1: on the synthetic index with ages 1 h, 2 h, 2.9 h, 4 h, 0.5 h and a
3-hour threshold, both crawlers emit exactly the first three items, stop
the category at the 4 h item (returning everything collected so far: for
`get_listings` the `CategoryStale` outcome carries the three listings, and
the worker returns them with the stale flag set), and never fetch or emit
the 0.5 h item that follows the stale one. -/
theorem freshness_cutoff_scenario :
    get_listings c1Env false 91 c1Cats 30 30 [] (some 3) =
      .stale
        { listings :=
            [mkListingSlow c1Env c1R1 91 "https://marktplaats.nl/v1" c1D1,
             mkListingSlow c1Env c1R2 91 "https://marktplaats.nl/v2" c1D2,
             mkListingSlow c1Env c1R3 91 "https://marktplaats.nl/v3" c1D3],
          item_ids := ["i1", "i2", "i3"],
          maxListings := 30,
          fetched := ["https://marktplaats.nl/v1", "https://marktplaats.nl/v2",
            "https://marktplaats.nl/v3", "https://marktplaats.nl/v4"] } ∧
    "https://marktplaats.nl/v5" ∉
      (get_listings c1Env false 91 c1Cats 30 30 [] (some 3)).fetched ∧
    worker_category c1WEnv 3 c1WItems (some 30) [] =
      ({ existing := ["i1", "i2", "i3"],
         saved := [⟨"i1", "t1", some "T1"⟩, ⟨"i2", "t2", some "T2"⟩,
           ⟨"i3", "t3", some "T3"⟩],
         remaining := some 27,
         fetched := ["https://marktplaats.nl/v1", "https://marktplaats.nl/v2",
           "https://marktplaats.nl/v3", "https://marktplaats.nl/v4"] }, true) ∧
    "https://marktplaats.nl/v5" ∉
      (worker_category c1WEnv 3 c1WItems (some 30) []).1.fetched := by
  have hq1 : ¬(diff_hours 996400 1000000 > (3 : ℚ)) := by
    rw [diff_hours_eq]
    norm_num
  have hq2 : ¬(diff_hours 992800 1000000 > (3 : ℚ)) := by
    rw [diff_hours_eq]
    norm_num
  have hq3 : ¬(diff_hours 989560 1000000 > (3 : ℚ)) := by
    rw [diff_hours_eq]
    norm_num
  have hq4 : diff_hours 985600 1000000 > (3 : ℚ) := by
    rw [diff_hours_eq]
    norm_num
  have hw1 : ¬((3 : ℚ) ≤ 3600 / 3600) := by norm_num
  have hw2 : ¬((3 : ℚ) ≤ 7200 / 3600) := by norm_num
  have hw3 : ¬((3 : ℚ) ≤ 10440 / 3600) := by norm_num
  have hw4 : (3 : ℚ) ≤ 14400 / 3600 := by norm_num
  have hmain : get_listings c1Env false 91 c1Cats 30 30 [] (some 3) =
      .stale
        { listings :=
            [mkListingSlow c1Env c1R1 91 "https://marktplaats.nl/v1" c1D1,
             mkListingSlow c1Env c1R2 91 "https://marktplaats.nl/v2" c1D2,
             mkListingSlow c1Env c1R3 91 "https://marktplaats.nl/v3" c1D3],
          item_ids := ["i1", "i2", "i3"],
          maxListings := 30,
          fetched := ["https://marktplaats.nl/v1", "https://marktplaats.nl/v2",
            "https://marktplaats.nl/v3", "https://marktplaats.nl/v4"] } := by
    simp [get_listings, processCategories, processCategory, processPage,
      processItem, emitListing, mkListingSlow, c1Env, c1Cats, c1R1, c1R2,
      c1R3, c1R4, c1R5, c1D1, c1D2, c1D3, c1D4, c1D5, c1GetDetails,
      c1Fromiso, replaceZ, replaceZList, hq1, hq2, hq3, hq4,
      MARTKPLAATS_BASE_URL]
  have hworker : worker_category c1WEnv 3 c1WItems (some 30) [] =
      ({ existing := ["i1", "i2", "i3"],
         saved := [⟨"i1", "t1", some "T1"⟩, ⟨"i2", "t2", some "T2"⟩,
           ⟨"i3", "t3", some "T3"⟩],
         remaining := some 27,
         fetched := ["https://marktplaats.nl/v1", "https://marktplaats.nl/v2",
           "https://marktplaats.nl/v3", "https://marktplaats.nl/v4"] }, true) := by
    simp [worker_category, workerToFetch, workerFetchLoop, age_hours, c1WEnv,
      c1WItems, c1Fromiso, replaceZ, replaceZList, hw1, hw2, hw3, hw4,
      MARTKPLAATS_BASE_URL]
  refine ⟨hmain, ?_, hworker, ?_⟩
  · rw [hmain]
    decide
  · rw [hworker]
    decide

end MpScraper
